import Mathlib

/-!
# musicBrush: pointer-event handlers of the stamp painters

A shallow embedding of the event handlers of

* `src/musicBrush/pickRayBrush.cpp` (`struct PickRayDemo`),
* `src/musicBrush/rayBrushPlusSound.cpp` (`struct RayBrush`),
* `src/musicBrush/020_2DpaintNotes.cpp` (`class MyApp`).

The handlers are functions on an explicit state.  The stamp arrays `pos`,
`offset`, `dist`, `hover`, `selected` have the fixed size `N`, so they are
functions on `Fin N`; a write through the `int` cursor is bounds-checked and
a write outside the array makes the handler return `none`.

The camera, the ray and the vector arithmetic belong to the graphics toolkit.
They are parameters: `V` stands for `Vec3f`, `F` for `float`, `R` for `Rayd`,
and `Toolkit` bundles the three toolkit calls the handlers make.  No law of
arithmetic is assumed by the definitions.

Two concrete arithmetics are provided for evaluating the handlers: the integer
line (`lineToolkit`) and IEEE binary32 vectors (`Binary32`, `Vec3f`,
`floatToolkit`), in which sums and differences are rounded as `float` sums
are.  `int` arithmetic that can leave 32 bits is reduced with `wrapInt32`.
The frequency handed to the synth is a `float` power; `frequency` gives its
value as a real number that saturates at the end of the range of `float`.
-/

namespace MusicBrush

/-- Capacity of the stamp arrays (`#define N 1000`). -/
abbrev N : Nat := 1000

/-- The part of `al::Mouse` the handlers read: `m.x()` and `m.y()`, pixel
coordinates inside the window. -/
structure Mouse where
  x : Int
  y : Int
  deriving DecidableEq, Repr

/-- Toolkit calls made by the handlers.  `getPickRay` is `getPickRay(screenX,
screenY)`, which reads the camera matrices and the window size;
`intersectSphere r c` is `r.intersectSphere(c, 0.5f)` stored into a `float`
(the distance of the intersection, otherwise `-1`); `rayAt r t` is `r(t)`. -/
structure Toolkit (V F R : Type) where
  getPickRay : Int → Int → R
  intersectSphere : R → V → F
  rayAt : R → F → V

/-- Argument triple of `g.color(r, g, b)`. -/
structure Color where
  r : Nat
  g : Nat
  b : Nat
  deriving DecidableEq, Repr

/-- The call `g.color(r, g, b)` as an update of the current colour of the
graphics state. -/
def Color.set (c : Color) (_current : Color) : Color := c

/-- Calls made on `synthManager`.  `setFrequency p a4` stands for
`voice()->setInternalParameterValue("frequency", pow(2.f, (p - 69.f) / 12.f) * a4)`;
the floating-point value itself is not computed. -/
inductive SynthCmd where
  | setFrequency (pitch : Int) (referencePitch : Nat)
  | triggerOn (pitch : Int)
  | triggerOff (pitch : Int)
  deriving DecidableEq, Repr

/-- The stamp arrays and the cursor, as declared in both `PickRayDemo` and
`RayBrush`. -/
structure Stamps (V F : Type) where
  pos : Fin N → V
  offset : Fin N → V
  dist : Fin N → F
  hover : Fin N → Bool
  selected : Fin N → Bool
  currentSphereCount : Int

/-- An `int` index as a slot of an array of size `N`; `none` when the index
lies outside the array. -/
def index? (i : Int) : Option (Fin N) :=
  if h : 0 ≤ i ∧ i < 1000 then
    some ⟨i.toNat, by have h1 := h.1; have h2 := h.2; show i.toNat < 1000; omega⟩
  else none

/-- An arithmetic result stored in a 32-bit `int` (`++`, `+`), reduced to the
two's complement range. -/
def wrapInt32 (z : Int) : Int := (z + 2147483648) % 4294967296 - 2147483648

/-- The loop `for (int i = 0; i < N; i++) body`. -/
def forEachIndex {σ : Type} (body : Fin N → σ → σ) (init : σ) : σ :=
  (List.finRange N).foldl (fun s i => body i s) init

/-- Pointer events delivered by the window. -/
inductive Event where
  | move (m : Mouse)
  | down (m : Mouse)
  | drag (m : Mouse)
  | up (m : Mouse)
  deriving DecidableEq, Repr

/-- Pointer-move and pointer-drag events, the ones that may come between a
press and its release. -/
def Event.isMoveOrDrag : Event → Bool
  | .move _ => true
  | .drag _ => true
  | .down _ => false
  | .up _ => false

section Handlers

variable {V F R : Type} [Add V] [Sub V] [Zero V] [Zero F] [LT F]
  [∀ a b : F, Decidable (a < b)]

/-! ## pickRayBrush.cpp -/

namespace PickRayDemo

/-- Handler `PickRayDemo::onCreate`: sets up camera, light and mesh; no stamp field is
assigned. -/
def onCreate (s : Stamps V F) : Stamps V F := s

/-- Colour in effect at `g.draw(mMesh)` in iteration `i` of
`PickRayDemo::onDraw`, `c0` being the colour left by what was drawn before. -/
def drawColor (c0 : Color) (i : Fin N) (s : Stamps V F) : Color :=
  let g1 := if i.val = 0 then Color.set ⟨1, 1, 0⟩ c0 else c0
  if s.selected i then Color.set ⟨1, 0, 1⟩ g1
  else if s.hover i then Color.set ⟨0, 1, 1⟩ g1
  else Color.set ⟨1, 1, 1⟩ g1

/-- Handler `PickRayDemo::onDraw`: the list of spheres drawn, each with its
translation and colour, together with the colour state left behind. -/
def onDraw (c0 : Color) (s : Stamps V F) : Color × List (V × Color) :=
  forEachIndex
    (fun i (acc : Color × List (V × Color)) =>
      let c := drawColor acc.1 i s
      (c, acc.2 ++ [(s.pos i, c)]))
    (c0, [])

/-- Handler `PickRayDemo::onMouseMove`. -/
def onMouseMove (tk : Toolkit V F R) (m : Mouse) (s : Stamps V F) : Stamps V F :=
  let r := tk.getPickRay m.x m.y
  forEachIndex
    (fun i (s1 : Stamps V F) =>
      let t := tk.intersectSphere r (s1.pos i)
      { s1 with hover := Function.update s1.hover i (decide (0 < t)) })
    s

/-- Handler `PickRayDemo::onMouseDown`; the loop `for (int i = 0; i < 1; i++)` runs
its body once, with `i = 0`. -/
def onMouseDown (tk : Toolkit V F R) (m : Mouse) (s : Stamps V F) : Stamps V F :=
  let r := tk.getPickRay m.x m.y
  let i : Fin N := 0
  let t := tk.intersectSphere r (s.pos i)
  let s1 := { s with selected := Function.update s.selected i (decide (0 < t)) }
  if 0 < t then
    { s1 with
      offset := Function.update s1.offset i (s1.pos i - tk.rayAt r t)
      dist := Function.update s1.dist i t
      currentSphereCount := 1 }
  else s1

/-- Handler `PickRayDemo::onMouseDrag`; `none` when a stamp is written outside the
arrays. -/
def onMouseDrag (tk : Toolkit V F R) (m : Mouse) (s : Stamps V F) :
    Option (Stamps V F) :=
  let r := tk.getPickRay m.x m.y
  let i := s.currentSphereCount
  let painted : Option (Stamps V F) :=
    if s.selected 0 then
      let newPos := tk.rayAt r (s.dist 0) + s.offset 0
      (index? i).map fun j =>
        { s with
          pos := Function.update (Function.update s.pos 0 newPos) j newPos
          offset := Function.update s.offset j 0
          dist := Function.update s.dist j 0
          hover := Function.update s.hover j false
          selected := Function.update s.selected j false }
    else some s
  painted.map fun s1 =>
    { s1 with currentSphereCount := wrapInt32 (s1.currentSphereCount + 1) }

/-- Handler `PickRayDemo::onMouseUp`. -/
def onMouseUp (_m : Mouse) (s : Stamps V F) : Stamps V F :=
  forEachIndex
    (fun i (s1 : Stamps V F) =>
      { s1 with selected := Function.update s1.selected i false })
    s

/-- One pointer event handled by `PickRayDemo`. -/
def step (tk : Toolkit V F R) : Event → Stamps V F → Option (Stamps V F)
  | .move m, s => some (onMouseMove tk m s)
  | .down m, s => some (onMouseDown tk m s)
  | .drag m, s => onMouseDrag tk m s
  | .up m, s => some (onMouseUp m s)

/-- A sequence of pointer events handled in order. -/
def run (tk : Toolkit V F R) : List Event → Stamps V F → Option (Stamps V F)
  | [], s => some s
  | e :: es, s => (step tk e s).bind (run tk es)

end PickRayDemo

/-! ## rayBrushPlusSound.cpp -/

namespace RayBrush

/-- Mutable state of `RayBrush`: the stamp arrays and cursor, the global
`note`, and the calls made so far on `synthManager`. -/
structure State (V F : Type) extends Stamps V F where
  note : Int
  synthManager : List SynthCmd

/-- Handler `RayBrush::onCreate`: besides toolkit set-up, `currentSphereCount = 1`. -/
def onCreate (s : State V F) : State V F :=
  { s with currentSphereCount := 1 }

/-- Colour in effect at `g.draw(mMesh)` in iteration `i` of
`RayBrush::onDraw`, `c0` being the colour left by what was drawn before. -/
def drawColor (c0 : Color) (i : Fin N) (s : State V F) : Color :=
  let g1 :=
    if s.selected i then Color.set ⟨1, 0, 1⟩ c0
    else if s.hover i then Color.set ⟨0, 1, 1⟩ c0
    else Color.set ⟨1, 1, 1⟩ c0
  if i.val = 0 then Color.set ⟨1, 1, 0⟩ g1 else g1

/-- Handler `RayBrush::onDraw`: the list of spheres drawn, each with its translation
and colour, together with the colour state left behind. -/
def onDraw (c0 : Color) (s : State V F) : Color × List (V × Color) :=
  forEachIndex
    (fun i (acc : Color × List (V × Color)) =>
      let c := drawColor acc.1 i s
      (c, acc.2 ++ [(s.pos i, c)]))
    (c0, [])

/-- Handler `RayBrush::onMouseMove`. -/
def onMouseMove (tk : Toolkit V F R) (m : Mouse) (s : State V F) : State V F :=
  let r := tk.getPickRay m.x m.y
  forEachIndex
    (fun i (s1 : State V F) =>
      let t := tk.intersectSphere r (s1.pos i)
      { s1 with hover := Function.update s1.hover i (decide (0 < t)) })
    s

/-- Handler `RayBrush::onMouseDown`; the loop `for (int i = 0; i < 1; i++)` runs its
body once, with `i = 0`.  The sum `m.x() + m.y()` is a 32-bit `int` and the
division of `int`s truncates. -/
def onMouseDown (tk : Toolkit V F R) (m : Mouse) (s : State V F) : State V F :=
  let r := tk.getPickRay m.x m.y
  let i : Fin N := 0
  let t := tk.intersectSphere r (s.pos i)
  let s1 := { s with selected := Function.update s.selected i (decide (0 < t)) }
  if 0 < t then
    let s2 :=
      { s1 with
        offset := Function.update s1.offset i (s1.pos i - tk.rayAt r t)
        dist := Function.update s1.dist i t
        note := Int.tdiv (wrapInt32 (m.x + m.y)) 10 }
    if 0 < s2.note then
      { s2 with
        synthManager := s2.synthManager ++
          [SynthCmd.setFrequency s2.note 220, SynthCmd.triggerOn s2.note] }
    else s2
  else s1

/-- Handler `RayBrush::onMouseDrag`; `none` when a stamp is written outside the
arrays. -/
def onMouseDrag (tk : Toolkit V F R) (m : Mouse) (s : State V F) :
    Option (State V F) :=
  let r := tk.getPickRay m.x m.y
  let i := s.currentSphereCount
  let painted : Option (State V F) :=
    if s.selected 0 then
      let newPos := tk.rayAt r (s.dist 0) + s.offset 0
      (index? i).map fun j =>
        { s with
          pos := Function.update (Function.update s.pos 0 newPos) j newPos
          offset := Function.update s.offset j 0
          dist := Function.update s.dist j 0
          hover := Function.update s.hover j false
          selected := Function.update s.selected j false }
    else some s
  painted.map fun s1 =>
    if s1.currentSphereCount < 1000 then
      { s1 with currentSphereCount := s1.currentSphereCount + 1 }
    else
      { s1 with currentSphereCount := 1 }

/-- Handler `RayBrush::onMouseUp`. -/
def onMouseUp (_m : Mouse) (s : State V F) : State V F :=
  let s0 := { s with synthManager := s.synthManager ++ [SynthCmd.triggerOff s.note] }
  forEachIndex
    (fun i (s1 : State V F) =>
      { s1 with selected := Function.update s1.selected i false })
    s0

/-- One pointer event handled by `RayBrush`. -/
def step (tk : Toolkit V F R) : Event → State V F → Option (State V F)
  | .move m, s => some (onMouseMove tk m s)
  | .down m, s => some (onMouseDown tk m s)
  | .drag m, s => onMouseDrag tk m s
  | .up m, s => some (onMouseUp m s)

/-- A sequence of pointer events handled in order. -/
def run (tk : Toolkit V F R) : List Event → State V F → Option (State V F)
  | [], s => some s
  | e :: es, s => (step tk e s).bind (run tk es)

/-- Execution of `RayBrush` over every event sequence, also past a drag that
writes outside the stamp arrays.  After such a drag the stamp members of the
object no longer hold known values (`clobbered`); what is kept is the global
`note`, which lies outside the object, and the calls already made on
`synthManager`.  A press in that condition tests the unknown `pos[0]`, after
which nothing is known (`lost`). -/
inductive Exec (V F : Type) where
  | ok (s : State V F)
  | clobbered (note : Int) (synthManager : List SynthCmd)
  | lost

/-- The global `note`, where it is known. -/
def Exec.note? : Exec V F → Option Int
  | .ok s => some s.note
  | .clobbered note _ => some note
  | .lost => none

/-- The calls made so far on `synthManager`, where they are known. -/
def Exec.synthManager? : Exec V F → Option (List SynthCmd)
  | .ok s => some s.synthManager
  | .clobbered _ synthManager => some synthManager
  | .lost => none

/-- One pointer event in an execution.  From `ok s` the handler runs as in
`step`; a drag that writes outside the arrays assigns neither `note` nor calls
`synthManager`, so both are carried over.  With the stamps clobbered, move and
drag still touch stamp members only, and a release still calls
`synthManager.triggerOff(note)`. -/
def stepExec (tk : Toolkit V F R) (e : Event) : Exec V F → Exec V F
  | .ok s =>
    match step tk e s with
    | some s' => .ok s'
    | none => .clobbered s.note s.synthManager
  | .clobbered note synthManager =>
    match e with
    | .move _ => .clobbered note synthManager
    | .drag _ => .clobbered note synthManager
    | .up _ => .clobbered note (synthManager ++ [SynthCmd.triggerOff note])
    | .down _ => .lost
  | .lost => .lost

/-- A sequence of pointer events in an execution. -/
def runExec (tk : Toolkit V F R) : List Event → Exec V F → Exec V F
  | [], x => x
  | e :: es, x => runExec tk es (stepExec tk e x)

end RayBrush

end Handlers

/-! ## 020_2DpaintNotes.cpp -/

namespace MyApp

/-- Mutable state of `020_2DpaintNotes`: the globals `x_pos`, `y_pos`, `note`
and the calls made so far on `synthManager`. -/
structure State where
  x_pos : Int
  y_pos : Int
  note : Int
  synthManager : List SynthCmd
  deriving DecidableEq, Repr

/-- Handler `MyApp::onMouseDown`. -/
def onMouseDown (m : Mouse) (s : State) : State :=
  let s1 := { s with note := m.x }
  let s2 :=
    if 0 < s1.note then
      { s1 with
        synthManager := s1.synthManager ++
          [SynthCmd.setFrequency s1.note 220, SynthCmd.triggerOn s1.note] }
    else s1
  { s2 with x_pos := m.x, y_pos := m.y }

/-- Handler `MyApp::onMouseUp`. -/
def onMouseUp (_m : Mouse) (s : State) : State :=
  { s with synthManager := s.synthManager ++ [SynthCmd.triggerOff s.note] }

/-- Handler `MyApp::onMouseDrag`. -/
def onMouseDrag (m : Mouse) (s : State) : State :=
  { s with x_pos := m.x, y_pos := m.y }

/-- One pointer event handled by `MyApp`; `onMouseMove` is not overridden, so
a move event leaves the state as it is. -/
def step : Event → State → State
  | .move _, s => s
  | .down m, s => onMouseDown m s
  | .drag m, s => onMouseDrag m s
  | .up m, s => onMouseUp m s

/-- A sequence of pointer events handled in order. -/
def run : List Event → State → State
  | [], s => s
  | e :: es, s => run es (step e s)

end MyApp

/-! ### Frequency of a pitch -/

/-- Toolkit over the integer line. -/
def lineToolkit : Toolkit Int Int Int where
  getPickRay := fun x _ => x
  intersectSphere := fun r c => if Int.natAbs (c - r) ≤ 1 then 10 else -1
  rayAt := fun r _ => r

/-- All stamps at the origin, nothing hovered or selected, cursor at `1`. -/
def idleStamps : Stamps Int Int where
  pos := fun _ => 0
  offset := fun _ => 0
  dist := fun _ => 0
  hover := fun _ => false
  selected := fun _ => false
  currentSphereCount := 1

/-- The stamps of `idleStamps` with the lead stamp selected. -/
def pressedStamps : Stamps Int Int :=
  { idleStamps with selected := Function.update idleStamps.selected 0 true }

/-- State of `RayBrush` over `idleStamps`, with `note` at its initial value. -/
def idleState : RayBrush.State Int Int where
  toStamps := idleStamps
  note := 72
  synthManager := []

/-- State of `RayBrush` over `pressedStamps`. -/
def pressedState : RayBrush.State Int Int :=
  { idleState with toStamps := pressedStamps }

/-- State of `MyApp` at start-up (`note = 72`, nothing sent to the synthManager). -/
def MyApp.initial : MyApp.State where
  x_pos := 0
  y_pos := 0
  note := 72
  synthManager := []

/-! ### Vectors of `float`

The finite values of IEEE binary32 are the integer multiples `k * 2^-149` with
at most 24 significant bits.  Counted in these units, the sum or difference of
two finite values is an integer, and the `float` result is that integer
rounded to 24 significant bits, ties to even.  Overflow is not represented;
the magnitudes used below stay far from it. -/

/-- A finite binary32 value, counted in units of `2^-149`. -/
structure Binary32 where
  units : Int
  deriving DecidableEq, Repr

/-- Number of low bits to drop so that 24 significant bits remain: the least
`s`, from the given one on, with `n / 2^s < 2^24`. -/
def Binary32.dropBits : Nat → Nat → Nat → Nat
  | 0, _, s => s
  | fuel + 1, n, s => if n / 2 ^ s < 16777216 then s else Binary32.dropBits fuel n (s + 1)

/-- Round to nearest with 24 significant bits, ties to even. -/
def Binary32.roundNat (n : Nat) : Nat :=
  let s := Binary32.dropBits 300 n 0
  let q := n / 2 ^ s
  let r := n % 2 ^ s
  let half := 2 ^ s / 2
  if half < r ∨ (r = half ∧ s ≠ 0 ∧ q % 2 = 1) then (q + 1) * 2 ^ s else q * 2 ^ s

/-- The binary32 value nearest to `k * 2^-149`. -/
def Binary32.round (k : Int) : Binary32 :=
  if k < 0 then ⟨-(Binary32.roundNat k.natAbs : Int)⟩ else ⟨(Binary32.roundNat k.natAbs : Int)⟩

/-- Conversion of an `int` to `float`. -/
def Binary32.ofInt (n : Int) : Binary32 := Binary32.round (n * 2 ^ 149)

/-- The literal `0.1f`, that is `13421773 * 2^-27`. -/
def Binary32.tenth : Binary32 := ⟨13421773 * 2 ^ 122⟩

/-- The literal `0.5f`. -/
def Binary32.half : Binary32 := ⟨2 ^ 148⟩

/-- Product of a converted `int` and a `float`: the exact product, rounded. -/
def Binary32.scale (n : Int) (a : Binary32) : Binary32 := Binary32.round (n * a.units)

instance : Add Binary32 := ⟨fun a b => Binary32.round (a.units + b.units)⟩

instance : Sub Binary32 := ⟨fun a b => Binary32.round (a.units - b.units)⟩

instance : Zero Binary32 := ⟨⟨0⟩⟩

instance : LT Binary32 := ⟨fun a b => a.units < b.units⟩

instance (a b : Binary32) : Decidable (a < b) := Int.decLt a.units b.units

/-- The toolkit vector `Vec3f`: three `float` components, added and subtracted
componentwise. -/
structure Vec3f where
  x : Binary32
  y : Binary32
  z : Binary32
  deriving DecidableEq, Repr

instance : Add Vec3f := ⟨fun a b => ⟨a.x + b.x, a.y + b.y, a.z + b.z⟩⟩

instance : Sub Vec3f := ⟨fun a b => ⟨a.x - b.x, a.y - b.y, a.z - b.z⟩⟩

instance : Zero Vec3f := ⟨⟨0, 0, 0⟩⟩

/-- A toolkit over `float` vectors: the camera looks down the `z` axis from the
plane `z = 80`, one pixel is `0.1f` world units, so the ray of pixel `(x, y)`
starts at `(x * 0.1f, y * 0.1f, 80)` and `r(t)` lies `t` below.  The sphere
test is a stand-in for the toolkit's: a ray within `0.5` of the centre in `x`
and in `y` hits, at the distance of the sphere's front plane, otherwise `-1`. -/
def floatToolkit : Toolkit Vec3f Binary32 Vec3f where
  getPickRay := fun x y =>
    ⟨Binary32.scale x Binary32.tenth, Binary32.scale y Binary32.tenth, Binary32.ofInt 80⟩
  intersectSphere := fun r c =>
    if c.x - r.x < Binary32.half ∧ r.x - c.x < Binary32.half ∧
        c.y - r.y < Binary32.half ∧ r.y - c.y < Binary32.half
      then (r.z - c.z) - Binary32.half else Binary32.ofInt (-1)
  rayAt := fun r t => ⟨r.x, r.y, r.z - t⟩

/-- Start-up stamps over `float` vectors: every `Vec3f` is zero, nothing is
hovered or selected, the cursor is at `1`. -/
def floatStamps : Stamps Vec3f Binary32 where
  pos := fun _ => 0
  offset := fun _ => 0
  dist := fun _ => 0
  hover := fun _ => false
  selected := fun _ => false
  currentSphereCount := 1

/-- State of `RayBrush` over `floatStamps`. -/
def floatState : RayBrush.State Vec3f Binary32 where
  toStamps := floatStamps
  note := 72
  synthManager := []

/-- A press on the lead stamp followed by two drags. -/
def pressDragDrag : List Event :=
  [Event.down ⟨0, 0⟩, Event.drag ⟨3, 0⟩, Event.drag ⟨4, 1⟩]

/-- Two drags and a move, as between a press and its release. -/
def dragDragMove : List Event :=
  [Event.drag ⟨3, 0⟩, Event.drag ⟨4, 1⟩, Event.move ⟨5, 1⟩]

/-! ## Loops -/

section Loops

variable {V F R : Type}

theorem index?_eq_some {i : Int} {j : Fin N} (h : index? i = some j) :
    (j.val : Int) = i ∧ 0 ≤ i ∧ i < 1000 := by
  unfold index? at h
  split at h
  · rename_i hb
    simp only [Option.some.injEq] at h
    subst h
    refine ⟨?_, hb.1, hb.2⟩
    show ((i.toNat : Nat) : Int) = i
    omega
  · exact absurd h (by simp)

theorem index?_isSome {i : Int} (h0 : 0 ≤ i) (h1 : i < 1000) :
    ∃ j : Fin N, index? i = some j ∧ (j.val : Int) = i := by
  have hb : 0 ≤ i ∧ i < 1000 := ⟨h0, h1⟩
  refine ⟨⟨i.toNat, by show i.toNat < 1000; omega⟩, ?_, ?_⟩
  · unfold index?
    rw [dif_pos hb]
  · show ((i.toNat : Nat) : Int) = i
    omega

theorem index?_none {i : Int} (h : 1000 ≤ i) : index? i = none := by
  unfold index?
  rw [dif_neg]
  omega

theorem foldl_clear_selected (l : List (Fin N)) (s : Stamps V F) :
    l.foldl (fun (s1 : Stamps V F) i =>
        { s1 with selected := Function.update s1.selected i false }) s
      = { s with selected := fun j => if j ∈ l then false else s.selected j } := by
  induction l generalizing s with
  | nil => simp
  | cons a l ih =>
    rw [List.foldl_cons, ih]
    congr 1
    funext j
    by_cases hj : j ∈ l
    · simp [hj]
    · by_cases ha : j = a
      · subst ha
        simp [hj]
      · simp [hj, ha, Function.update_noteq ha]

theorem foldl_set_hover (g : V → Bool) (l : List (Fin N)) (s : Stamps V F) :
    l.foldl (fun (s1 : Stamps V F) i =>
        { s1 with hover := Function.update s1.hover i (g (s1.pos i)) }) s
      = { s with hover := fun j => if j ∈ l then g (s.pos j) else s.hover j } := by
  induction l generalizing s with
  | nil => simp
  | cons a l ih =>
    rw [List.foldl_cons, ih]
    congr 1
    funext j
    by_cases hj : j ∈ l
    · simp [hj]
    · by_cases ha : j = a
      · subst ha
        simp [hj]
      · simp [hj, ha, Function.update_noteq ha]

theorem foldl_clear_selected_state (l : List (Fin N)) (s : RayBrush.State V F) :
    l.foldl (fun (s1 : RayBrush.State V F) i =>
        { s1 with selected := Function.update s1.selected i false }) s
      = { s with selected := fun j => if j ∈ l then false else s.selected j } := by
  induction l generalizing s with
  | nil => simp
  | cons a l ih =>
    rw [List.foldl_cons, ih]
    congr 2
    funext j
    by_cases hj : j ∈ l
    · simp [hj]
    · by_cases ha : j = a
      · subst ha
        simp [hj]
      · simp [hj, ha, Function.update_noteq ha]

theorem foldl_set_hover_state (g : V → Bool) (l : List (Fin N)) (s : RayBrush.State V F) :
    l.foldl (fun (s1 : RayBrush.State V F) i =>
        { s1 with hover := Function.update s1.hover i (g (s1.pos i)) }) s
      = { s with hover := fun j => if j ∈ l then g (s.pos j) else s.hover j } := by
  induction l generalizing s with
  | nil => simp
  | cons a l ih =>
    rw [List.foldl_cons, ih]
    congr 2
    funext j
    by_cases hj : j ∈ l
    · simp [hj]
    · by_cases ha : j = a
      · subst ha
        simp [hj]
      · simp [hj, ha, Function.update_noteq ha]

end Loops

/-! ## The handlers in closed form -/

section ClosedForms

variable {V F R : Type}

theorem PickRayDemo.onMouseUp_eq_pick (m : Mouse) (s : Stamps V F) :
    PickRayDemo.onMouseUp m s = { s with selected := fun _ => false } := by
  unfold PickRayDemo.onMouseUp forEachIndex
  rw [foldl_clear_selected]
  simp [List.mem_finRange]

theorem RayBrush.onMouseUp_eq_brush (m : Mouse) (s : RayBrush.State V F) :
    RayBrush.onMouseUp m s =
      { s with
        selected := fun _ => false
        synthManager := s.synthManager ++ [SynthCmd.triggerOff s.note] } := by
  unfold RayBrush.onMouseUp forEachIndex
  simp only []
  rw [foldl_clear_selected_state]
  simp [List.mem_finRange]

theorem PickRayDemo.onMouseMove_eq_pick [Zero F] [LT F] [∀ a b : F, Decidable (a < b)]
    (tk : Toolkit V F R) (m : Mouse) (s : Stamps V F) :
    PickRayDemo.onMouseMove tk m s =
      { s with hover := fun j =>
          decide (0 < tk.intersectSphere (tk.getPickRay m.x m.y) (s.pos j)) } := by
  unfold PickRayDemo.onMouseMove forEachIndex
  simp only []
  rw [foldl_set_hover (fun v => decide (0 < tk.intersectSphere (tk.getPickRay m.x m.y) v))]
  simp [List.mem_finRange]

theorem RayBrush.onMouseMove_eq_brush [Zero F] [LT F] [∀ a b : F, Decidable (a < b)]
    (tk : Toolkit V F R) (m : Mouse) (s : RayBrush.State V F) :
    RayBrush.onMouseMove tk m s =
      { s with hover := fun j =>
          decide (0 < tk.intersectSphere (tk.getPickRay m.x m.y) (s.pos j)) } := by
  unfold RayBrush.onMouseMove forEachIndex
  simp only []
  rw [foldl_set_hover_state (fun v => decide (0 < tk.intersectSphere (tk.getPickRay m.x m.y) v))]
  simp [List.mem_finRange]

theorem PickRayDemo.onMouseDrag_unselected_pick [Add V] [Zero V] [Zero F]
    (tk : Toolkit V F R) (m : Mouse) (s : Stamps V F) (hs : s.selected 0 = false) :
    PickRayDemo.onMouseDrag tk m s =
      some { s with currentSphereCount := wrapInt32 (s.currentSphereCount + 1) } := by
  simp [PickRayDemo.onMouseDrag, hs]

theorem PickRayDemo.onMouseDrag_selected_pick [Add V] [Zero V] [Zero F]
    (tk : Toolkit V F R) (m : Mouse) (s : Stamps V F) (j : Fin N)
    (hs : s.selected 0 = true) (hj : index? s.currentSphereCount = some j) :
    PickRayDemo.onMouseDrag tk m s =
      some
        { pos := Function.update
            (Function.update s.pos 0 (tk.rayAt (tk.getPickRay m.x m.y) (s.dist 0) + s.offset 0))
            j (tk.rayAt (tk.getPickRay m.x m.y) (s.dist 0) + s.offset 0)
          offset := Function.update s.offset j 0
          dist := Function.update s.dist j 0
          hover := Function.update s.hover j false
          selected := Function.update s.selected j false
          currentSphereCount := wrapInt32 (s.currentSphereCount + 1) } := by
  simp [PickRayDemo.onMouseDrag, hs, hj]

theorem PickRayDemo.onMouseDrag_outside_pick [Add V] [Zero V] [Zero F]
    (tk : Toolkit V F R) (m : Mouse) (s : Stamps V F)
    (hs : s.selected 0 = true) (hj : index? s.currentSphereCount = none) :
    PickRayDemo.onMouseDrag tk m s = none := by
  simp [PickRayDemo.onMouseDrag, hs, hj]

theorem RayBrush.onMouseDrag_unselected_brush [Add V] [Zero V] [Zero F]
    (tk : Toolkit V F R) (m : Mouse) (s : RayBrush.State V F) (hs : s.selected 0 = false) :
    RayBrush.onMouseDrag tk m s =
      some { s with currentSphereCount :=
        if s.currentSphereCount < 1000 then s.currentSphereCount + 1 else 1 } := by
  by_cases hc : s.currentSphereCount < 1000 <;> simp [RayBrush.onMouseDrag, hs, hc]

theorem RayBrush.onMouseDrag_selected_brush [Add V] [Zero V] [Zero F]
    (tk : Toolkit V F R) (m : Mouse) (s : RayBrush.State V F) (j : Fin N)
    (hs : s.selected 0 = true) (hj : index? s.currentSphereCount = some j) :
    RayBrush.onMouseDrag tk m s =
      some
        { pos := Function.update
            (Function.update s.pos 0 (tk.rayAt (tk.getPickRay m.x m.y) (s.dist 0) + s.offset 0))
            j (tk.rayAt (tk.getPickRay m.x m.y) (s.dist 0) + s.offset 0)
          offset := Function.update s.offset j 0
          dist := Function.update s.dist j 0
          hover := Function.update s.hover j false
          selected := Function.update s.selected j false
          currentSphereCount :=
            if s.currentSphereCount < 1000 then s.currentSphereCount + 1 else 1
          note := s.note
          synthManager := s.synthManager } := by
  by_cases hc : s.currentSphereCount < 1000 <;> simp [RayBrush.onMouseDrag, hs, hj, hc]

theorem RayBrush.onMouseDrag_outside_brush [Add V] [Zero V] [Zero F]
    (tk : Toolkit V F R) (m : Mouse) (s : RayBrush.State V F)
    (hs : s.selected 0 = true) (hj : index? s.currentSphereCount = none) :
    RayBrush.onMouseDrag tk m s = none := by
  simp [RayBrush.onMouseDrag, hs, hj]

end ClosedForms

/-! ## Drawing -/

section Drawing

variable {V F : Type}

/-- In `PickRayDemo::onDraw` the selected/hover/else chain decides the colour
of every stamp, the lead stamp included. -/
theorem PickRayDemo.drawColor_eq_pick (c0 : Color) (i : Fin N) (s : Stamps V F) :
    PickRayDemo.drawColor c0 i s =
      if s.selected i then ⟨1, 0, 1⟩ else if s.hover i then ⟨0, 1, 1⟩ else ⟨1, 1, 1⟩ := by
  unfold PickRayDemo.drawColor Color.set
  rfl

theorem RayBrush.drawColor_eq_brush (c0 : Color) (i : Fin N) (s : RayBrush.State V F) :
    RayBrush.drawColor c0 i s =
      if i.val = 0 then ⟨1, 1, 0⟩
      else if s.selected i then ⟨1, 0, 1⟩ else if s.hover i then ⟨0, 1, 1⟩ else ⟨1, 1, 1⟩ := by
  unfold RayBrush.drawColor Color.set
  rfl

theorem foldl_draws {σ : Type} (pos : Fin N → V) (col : Color → Fin N → σ → Color)
    (col' : Fin N → Color) (st : σ) (hcol : ∀ c i, col c i st = col' i)
    (l : List (Fin N)) (acc : Color × List (V × Color)) :
    (l.foldl (fun (a : Color × List (V × Color)) i =>
        (col a.1 i st, a.2 ++ [(pos i, col a.1 i st)])) acc).2
      = acc.2 ++ l.map (fun i => (pos i, col' i)) := by
  induction l generalizing acc with
  | nil => simp
  | cons a l ih =>
    rw [List.foldl_cons, ih]
    simp [hcol]

theorem PickRayDemo.onDraw_draws_pick (c0 : Color) (s : Stamps V F) :
    (PickRayDemo.onDraw c0 s).2 =
      (List.finRange N).map (fun i =>
        (s.pos i,
          if s.selected i then (⟨1, 0, 1⟩ : Color)
          else if s.hover i then ⟨0, 1, 1⟩ else ⟨1, 1, 1⟩)) := by
  have h := foldl_draws s.pos (fun c i st => PickRayDemo.drawColor c i st) _ s
    (fun c i => PickRayDemo.drawColor_eq_pick c i s) (List.finRange N) (c0, [])
  rw [List.nil_append] at h
  exact h

theorem RayBrush.onDraw_draws_brush (c0 : Color) (s : RayBrush.State V F) :
    (RayBrush.onDraw c0 s).2 =
      (List.finRange N).map (fun i =>
        (s.pos i,
          if i.val = 0 then (⟨1, 1, 0⟩ : Color)
          else if s.selected i then ⟨1, 0, 1⟩
          else if s.hover i then ⟨0, 1, 1⟩ else ⟨1, 1, 1⟩)) := by
  have h := foldl_draws s.pos (fun c i st => RayBrush.drawColor c i st) _ s
    (fun c i => RayBrush.drawColor_eq_brush c i s) (List.finRange N) (c0, [])
  rw [List.nil_append] at h
  exact h

theorem head?_map_finRange {β : Type} (f : Fin N → β) :
    ((List.finRange N).map f).head? = some (f 0) := by
  show ((List.finRange (999 + 1)).map f).head? = some (f 0)
  rw [List.finRange_succ_eq_map]
  rfl

end Drawing

/-! ## Event sequences -/

section Sequences

variable {V F R : Type}

theorem PickRayDemo.run_invariant_pick [Add V] [Sub V] [Zero V] [Zero F] [LT F]
    [∀ a b : F, Decidable (a < b)]
    (tk : Toolkit V F R) (P : Stamps V F → Prop)
    (hstep : ∀ e s s', P s → PickRayDemo.step tk e s = some s' → P s')
    (evs : List Event) (s0 s : Stamps V F) (h0 : P s0)
    (h : PickRayDemo.run tk evs s0 = some s) : P s := by
  induction evs generalizing s0 with
  | nil =>
    simp only [PickRayDemo.run, Option.some.injEq] at h
    exact h ▸ h0
  | cons e es ih =>
    simp only [PickRayDemo.run] at h
    cases hs : PickRayDemo.step tk e s0 with
    | none => rw [hs] at h; exact absurd h (by simp)
    | some s1 =>
      rw [hs] at h
      exact ih s1 (hstep e s0 s1 h0 hs) h

theorem RayBrush.run_invariant_brush [Add V] [Sub V] [Zero V] [Zero F] [LT F]
    [∀ a b : F, Decidable (a < b)]
    (tk : Toolkit V F R) (P : RayBrush.State V F → Prop)
    (hstep : ∀ e s s', P s → RayBrush.step tk e s = some s' → P s')
    (evs : List Event) (s0 s : RayBrush.State V F) (h0 : P s0)
    (h : RayBrush.run tk evs s0 = some s) : P s := by
  induction evs generalizing s0 with
  | nil =>
    simp only [RayBrush.run, Option.some.injEq] at h
    exact h ▸ h0
  | cons e es ih =>
    simp only [RayBrush.run] at h
    cases hs : RayBrush.step tk e s0 with
    | none => rw [hs] at h; exact absurd h (by simp)
    | some s1 =>
      rw [hs] at h
      exact ih s1 (hstep e s0 s1 h0 hs) h

theorem RayBrush.onMouseDown_cursor [Sub V] [Zero F] [LT F]
    [∀ a b : F, Decidable (a < b)] (tk : Toolkit V F R) (m : Mouse) (s : RayBrush.State V F) :
    (RayBrush.onMouseDown tk m s).currentSphereCount = s.currentSphereCount := by
  unfold RayBrush.onMouseDown
  simp only []
  split_ifs <;> rfl

theorem RayBrush.onMouseDrag_cursor [Add V] [Zero V] [Zero F] (tk : Toolkit V F R) (m : Mouse)
    (s s' : RayBrush.State V F) (h : RayBrush.onMouseDrag tk m s = some s') :
    s'.currentSphereCount =
      if s.currentSphereCount < 1000 then s.currentSphereCount + 1 else 1 := by
  cases hs : s.selected 0 with
  | false =>
    rw [RayBrush.onMouseDrag_unselected_brush tk m s hs] at h
    simp only [Option.some.injEq] at h
    rw [← h]
  | true =>
    cases hj : index? s.currentSphereCount with
    | none =>
      rw [RayBrush.onMouseDrag_outside_brush tk m s hs hj] at h
      exact absurd h (by simp)
    | some j =>
      rw [RayBrush.onMouseDrag_selected_brush tk m s j hs hj] at h
      simp only [Option.some.injEq] at h
      rw [← h]

theorem RayBrush.step_cursor [Add V] [Sub V] [Zero V] [Zero F] [LT F]
    [∀ a b : F, Decidable (a < b)]
    (tk : Toolkit V F R) (e : Event)
    (s s' : RayBrush.State V F) (h : RayBrush.step tk e s = some s') :
    s'.currentSphereCount = s.currentSphereCount ∨
      (s.currentSphereCount < 1000 ∧ s'.currentSphereCount = s.currentSphereCount + 1) ∨
      s'.currentSphereCount = 1 := by
  cases e with
  | move m =>
    simp only [RayBrush.step, Option.some.injEq] at h
    rw [← h, RayBrush.onMouseMove_eq_brush]
    exact Or.inl rfl
  | down m =>
    simp only [RayBrush.step, Option.some.injEq] at h
    rw [← h]
    exact Or.inl (RayBrush.onMouseDown_cursor tk m s)
  | drag m =>
    simp only [RayBrush.step] at h
    have hc := RayBrush.onMouseDrag_cursor tk m s s' h
    by_cases hlt : s.currentSphereCount < 1000
    · rw [if_pos hlt] at hc
      exact Or.inr (Or.inl ⟨hlt, hc⟩)
    · rw [if_neg hlt] at hc
      exact Or.inr (Or.inr hc)
  | up m =>
    simp only [RayBrush.step, Option.some.injEq] at h
    rw [← h, RayBrush.onMouseUp_eq_brush]
    exact Or.inl rfl

theorem RayBrush.cursor_range [Add V] [Sub V] [Zero V] [Zero F] [LT F]
    [∀ a b : F, Decidable (a < b)]
    (tk : Toolkit V F R) (evs : List Event)
    (s0 s : RayBrush.State V F)
    (h0 : 1 ≤ s0.currentSphereCount ∧ s0.currentSphereCount ≤ 1000)
    (h : RayBrush.run tk evs s0 = some s) :
    1 ≤ s.currentSphereCount ∧ s.currentSphereCount ≤ 1000 := by
  refine RayBrush.run_invariant_brush tk
    (fun s => 1 ≤ s.currentSphereCount ∧ s.currentSphereCount ≤ 1000) ?_ evs s0 s h0 h
  intro e s1 s2 hP hs
  rcases RayBrush.step_cursor tk e s1 s2 hs with hc | ⟨hlt, hc⟩ | hc
  · rw [hc]; exact hP
  · rw [hc]; exact ⟨by omega, by omega⟩
  · rw [hc]; exact ⟨by omega, by omega⟩

theorem RayBrush.run_drags [Add V] [Sub V] [Zero V] [Zero F] [LT F]
    [∀ a b : F, Decidable (a < b)]
    (tk : Toolkit V F R) (ms : List Mouse) (s : RayBrush.State V F)
    (hs : s.selected 0 = true) (h1 : 1 ≤ s.currentSphereCount)
    (h2 : s.currentSphereCount + ms.length ≤ 1000) :
    ∃ s', RayBrush.run tk (ms.map Event.drag) s = some s' ∧
      s'.currentSphereCount = s.currentSphereCount + ms.length ∧
      s'.selected 0 = true := by
  induction ms generalizing s with
  | nil => exact ⟨s, rfl, by simp, hs⟩
  | cons m ms ih =>
    simp only [List.length_cons, Nat.cast_add, Nat.cast_one] at h2
    have hlt : s.currentSphereCount < 1000 := by omega
    obtain ⟨j, hj, hjv⟩ := index?_isSome (by omega : 0 ≤ s.currentSphereCount) hlt
    have hj0 : (0 : Fin N) ≠ j := by
      intro h0
      rw [← h0] at hjv
      simp at hjv
      omega
    obtain ⟨s1, hd, hsel1, hc1⟩ : ∃ s1, RayBrush.onMouseDrag tk m s = some s1 ∧
        s1.selected 0 = true ∧ s1.currentSphereCount = s.currentSphereCount + 1 := by
      refine ⟨_, RayBrush.onMouseDrag_selected_brush tk m s j hs hj, ?_, ?_⟩
      · show Function.update s.selected j false 0 = true
        rw [Function.update_noteq hj0]
        exact hs
      · exact if_pos hlt
    obtain ⟨s', hr, hc, hsel⟩ := ih s1 hsel1 (by omega) (by omega)
    refine ⟨s', ?_, ?_, hsel⟩
    · simp only [List.map_cons, RayBrush.run, RayBrush.step, hd, Option.some_bind]
      exact hr
    · rw [hc, hc1]
      simp only [List.length_cons, Nat.cast_add, Nat.cast_one]
      omega

theorem PickRayDemo.onMouseDown_spec_pick [Sub V] [Zero F] [LT F] [∀ a b : F, Decidable (a < b)]
    (tk : Toolkit V F R) (m : Mouse) (s : Stamps V F) :
    ((PickRayDemo.onMouseDown tk m s).selected 0 = true ↔
        0 < tk.intersectSphere (tk.getPickRay m.x m.y) (s.pos 0)) ∧
    (PickRayDemo.onMouseDown tk m s).offset 0 =
      (if 0 < tk.intersectSphere (tk.getPickRay m.x m.y) (s.pos 0)
        then s.pos 0 - tk.rayAt (tk.getPickRay m.x m.y)
          (tk.intersectSphere (tk.getPickRay m.x m.y) (s.pos 0))
        else s.offset 0) ∧
    (PickRayDemo.onMouseDown tk m s).dist 0 =
      (if 0 < tk.intersectSphere (tk.getPickRay m.x m.y) (s.pos 0)
        then tk.intersectSphere (tk.getPickRay m.x m.y) (s.pos 0)
        else s.dist 0) ∧
    (PickRayDemo.onMouseDown tk m s).pos = s.pos ∧
    (PickRayDemo.onMouseDown tk m s).hover = s.hover ∧
    ∀ i : Fin N, 1 ≤ i.val →
      (PickRayDemo.onMouseDown tk m s).selected i = s.selected i ∧
      (PickRayDemo.onMouseDown tk m s).offset i = s.offset i ∧
      (PickRayDemo.onMouseDown tk m s).dist i = s.dist i := by
  have hne : ∀ i : Fin N, 1 ≤ i.val → i ≠ 0 := by
    intro i hi h0
    rw [h0] at hi
    simp at hi
  unfold PickRayDemo.onMouseDown
  simp only []
  by_cases ht : 0 < tk.intersectSphere (tk.getPickRay m.x m.y) (s.pos 0)
  · simp only [if_pos ht, Function.update_same, decide_eq_true_eq, true_and]
    intro i hi
    simp [Function.update_noteq (hne i hi)]
  · simp only [if_neg ht, Function.update_same, decide_eq_true_eq, true_and]
    intro i hi
    simp [Function.update_noteq (hne i hi)]

theorem RayBrush.onMouseDown_spec_brush [Sub V] [Zero F] [LT F] [∀ a b : F, Decidable (a < b)]
    (tk : Toolkit V F R) (m : Mouse) (s : RayBrush.State V F) :
    ((RayBrush.onMouseDown tk m s).selected 0 = true ↔
        0 < tk.intersectSphere (tk.getPickRay m.x m.y) (s.pos 0)) ∧
    (RayBrush.onMouseDown tk m s).offset 0 =
      (if 0 < tk.intersectSphere (tk.getPickRay m.x m.y) (s.pos 0)
        then s.pos 0 - tk.rayAt (tk.getPickRay m.x m.y)
          (tk.intersectSphere (tk.getPickRay m.x m.y) (s.pos 0))
        else s.offset 0) ∧
    (RayBrush.onMouseDown tk m s).dist 0 =
      (if 0 < tk.intersectSphere (tk.getPickRay m.x m.y) (s.pos 0)
        then tk.intersectSphere (tk.getPickRay m.x m.y) (s.pos 0)
        else s.dist 0) ∧
    (RayBrush.onMouseDown tk m s).pos = s.pos ∧
    (RayBrush.onMouseDown tk m s).hover = s.hover ∧
    ∀ i : Fin N, 1 ≤ i.val →
      (RayBrush.onMouseDown tk m s).selected i = s.selected i ∧
      (RayBrush.onMouseDown tk m s).offset i = s.offset i ∧
      (RayBrush.onMouseDown tk m s).dist i = s.dist i := by
  have hne : ∀ i : Fin N, 1 ≤ i.val → i ≠ 0 := by
    intro i hi h0
    rw [h0] at hi
    simp at hi
  unfold RayBrush.onMouseDown
  simp only []
  by_cases ht : 0 < tk.intersectSphere (tk.getPickRay m.x m.y) (s.pos 0)
  · by_cases hn : 0 < Int.tdiv (wrapInt32 (m.x + m.y)) 10
    · simp only [if_pos ht, if_pos hn, Function.update_same, decide_eq_true_eq, true_and]
      intro i hi
      simp [Function.update_noteq (hne i hi)]
    · simp only [if_pos ht, if_neg hn, Function.update_same, decide_eq_true_eq, true_and]
      intro i hi
      simp [Function.update_noteq (hne i hi)]
  · simp only [if_neg ht, Function.update_same, decide_eq_true_eq, true_and]
    intro i hi
    simp [Function.update_noteq (hne i hi)]

theorem index?_val (c : Fin N) : index? (c.val : Int) = some c := by
  have hlt : c.val < 1000 := c.isLt
  obtain ⟨j, hj, hjv⟩ := index?_isSome (by omega : (0 : Int) ≤ (c.val : Int)) (by omega)
  have hjc : j = c := Fin.ext (by omega)
  rw [hj, hjc]

theorem fin_ne_zero_of_one_le (i : Fin N) (hi : 1 ≤ i.val) : i ≠ 0 := by
  intro h0
  rw [h0] at hi
  simp at hi

theorem RayBrush.step_isSome [Add V] [Sub V] [Zero V] [Zero F] [LT F]
    [∀ a b : F, Decidable (a < b)]
    (tk : Toolkit V F R) (e : Event) (s : RayBrush.State V F)
    (h0 : 0 ≤ s.currentSphereCount) (h1 : s.currentSphereCount < 1000) :
    (RayBrush.step tk e s).isSome = true := by
  cases e with
  | move m => rfl
  | down m => rfl
  | drag m =>
    simp only [RayBrush.step]
    cases hs : s.selected 0 with
    | false => rw [RayBrush.onMouseDrag_unselected_brush tk m s hs]; rfl
    | true =>
      obtain ⟨j, hj, _⟩ := index?_isSome h0 h1
      rw [RayBrush.onMouseDrag_selected_brush tk m s j hs hj]
      rfl
  | up m => rfl

theorem RayBrush.onMouseDrag_lead_kept [Add V] [Zero V] [Zero F]
    (tk : Toolkit V F R) (m : Mouse) (s s' : RayBrush.State V F)
    (hc : 1 ≤ s.currentSphereCount) (h : RayBrush.onMouseDrag tk m s = some s') :
    s'.selected 0 = s.selected 0 ∧ s'.hover 0 = s.hover 0 ∧
      s'.offset 0 = s.offset 0 ∧ s'.dist 0 = s.dist 0 := by
  cases hs : s.selected 0 with
  | false =>
    rw [RayBrush.onMouseDrag_unselected_brush tk m s hs] at h
    simp only [Option.some.injEq] at h
    rw [← h]
    exact ⟨hs, rfl, rfl, rfl⟩
  | true =>
    cases hj : index? s.currentSphereCount with
    | none =>
      rw [RayBrush.onMouseDrag_outside_brush tk m s hs hj] at h
      exact absurd h (by simp)
    | some j =>
      rw [RayBrush.onMouseDrag_selected_brush tk m s j hs hj] at h
      simp only [Option.some.injEq] at h
      have hjv := (index?_eq_some hj).1
      have hj0 : (0 : Fin N) ≠ j := by
        intro h0
        rw [← h0] at hjv
        simp at hjv
        omega
      rw [← h]
      refine ⟨?_, ?_, ?_, ?_⟩ <;> simp [Function.update_noteq hj0, hs]

theorem PickRayDemo.step_trail_unselected_pick [Add V] [Sub V] [Zero V] [Zero F] [LT F]
    [∀ a b : F, Decidable (a < b)]
    (tk : Toolkit V F R) (e : Event) (s s' : Stamps V F)
    (hP : ∀ i : Fin N, 1 ≤ i.val → s.selected i = false)
    (h : PickRayDemo.step tk e s = some s') :
    ∀ i : Fin N, 1 ≤ i.val → s'.selected i = false := by
  intro i hi
  cases e with
  | move m =>
    simp only [PickRayDemo.step, Option.some.injEq] at h
    rw [← h, PickRayDemo.onMouseMove_eq_pick]
    exact hP i hi
  | down m =>
    simp only [PickRayDemo.step, Option.some.injEq] at h
    rw [← h, ((PickRayDemo.onMouseDown_spec_pick tk m s).2.2.2.2.2 i hi).1]
    exact hP i hi
  | drag m =>
    simp only [PickRayDemo.step] at h
    cases hs : s.selected 0 with
    | false =>
      rw [PickRayDemo.onMouseDrag_unselected_pick tk m s hs] at h
      simp only [Option.some.injEq] at h
      rw [← h]
      exact hP i hi
    | true =>
      cases hj : index? s.currentSphereCount with
      | none =>
        rw [PickRayDemo.onMouseDrag_outside_pick tk m s hs hj] at h
        exact absurd h (by simp)
      | some j =>
        rw [PickRayDemo.onMouseDrag_selected_pick tk m s j hs hj] at h
        simp only [Option.some.injEq] at h
        rw [← h]
        show Function.update s.selected j false i = false
        by_cases hij : i = j
        · rw [hij, Function.update_same]
        · rw [Function.update_noteq hij]
          exact hP i hi
  | up m =>
    simp only [PickRayDemo.step, Option.some.injEq] at h
    rw [← h, PickRayDemo.onMouseUp_eq_pick]

theorem RayBrush.step_trail_unselected_brush [Add V] [Sub V] [Zero V] [Zero F] [LT F]
    [∀ a b : F, Decidable (a < b)]
    (tk : Toolkit V F R) (e : Event) (s s' : RayBrush.State V F)
    (hP : ∀ i : Fin N, 1 ≤ i.val → s.selected i = false)
    (h : RayBrush.step tk e s = some s') :
    ∀ i : Fin N, 1 ≤ i.val → s'.selected i = false := by
  intro i hi
  cases e with
  | move m =>
    simp only [RayBrush.step, Option.some.injEq] at h
    rw [← h, RayBrush.onMouseMove_eq_brush]
    exact hP i hi
  | down m =>
    simp only [RayBrush.step, Option.some.injEq] at h
    rw [← h, ((RayBrush.onMouseDown_spec_brush tk m s).2.2.2.2.2 i hi).1]
    exact hP i hi
  | drag m =>
    simp only [RayBrush.step] at h
    cases hs : s.selected 0 with
    | false =>
      rw [RayBrush.onMouseDrag_unselected_brush tk m s hs] at h
      simp only [Option.some.injEq] at h
      rw [← h]
      exact hP i hi
    | true =>
      cases hj : index? s.currentSphereCount with
      | none =>
        rw [RayBrush.onMouseDrag_outside_brush tk m s hs hj] at h
        exact absurd h (by simp)
      | some j =>
        rw [RayBrush.onMouseDrag_selected_brush tk m s j hs hj] at h
        simp only [Option.some.injEq] at h
        rw [← h]
        show Function.update s.selected j false i = false
        by_cases hij : i = j
        · rw [hij, Function.update_same]
        · rw [Function.update_noteq hij]
          exact hP i hi
  | up m =>
    simp only [RayBrush.step, Option.some.injEq] at h
    rw [← h, RayBrush.onMouseUp_eq_brush]

theorem MyApp.run_note_paint (evs : List Event) (s : MyApp.State)
    (hevs : ∀ e ∈ evs, e.isMoveOrDrag = true) :
    (MyApp.run evs s).note = s.note := by
  induction evs generalizing s with
  | nil => rfl
  | cons e es ih =>
    have he := hevs e (List.mem_cons_self e es)
    have hes : ∀ e' ∈ es, e'.isMoveOrDrag = true :=
      fun e' h' => hevs e' (List.mem_cons_of_mem e h')
    simp only [MyApp.run]
    rw [ih _ hes]
    cases e with
    | move m => rfl
    | drag m => rfl
    | down m => exact absurd he (by simp [Event.isMoveOrDrag])
    | up m => exact absurd he (by simp [Event.isMoveOrDrag])

theorem MyApp.run_append_paint (l1 l2 : List Event) (s : MyApp.State) :
    MyApp.run (l1 ++ l2) s = MyApp.run l2 (MyApp.run l1 s) := by
  induction l1 generalizing s with
  | nil => rfl
  | cons e es ih =>
    simp only [List.cons_append, MyApp.run]
    exact ih _

theorem RayBrush.onMouseDown_note [Sub V] [Zero F] [LT F] [∀ a b : F, Decidable (a < b)]
    (tk : Toolkit V F R) (m : Mouse) (s : RayBrush.State V F) :
    (RayBrush.onMouseDown tk m s).note =
      if 0 < tk.intersectSphere (tk.getPickRay m.x m.y) (s.pos 0)
        then Int.tdiv (wrapInt32 (m.x + m.y)) 10 else s.note := by
  unfold RayBrush.onMouseDown
  by_cases ht : 0 < tk.intersectSphere (tk.getPickRay m.x m.y) (s.pos 0)
  · by_cases hq : 0 < Int.tdiv (wrapInt32 (m.x + m.y)) 10 <;> simp [ht, hq]
  · simp [ht]

theorem RayBrush.onMouseDrag_note [Add V] [Zero V] [Zero F]
    (tk : Toolkit V F R) (m : Mouse) (s s' : RayBrush.State V F)
    (h : RayBrush.onMouseDrag tk m s = some s') : s'.note = s.note := by
  cases hs : s.selected 0 with
  | false =>
    rw [RayBrush.onMouseDrag_unselected_brush tk m s hs] at h
    simp only [Option.some.injEq] at h
    rw [← h]
  | true =>
    cases hj : index? s.currentSphereCount with
    | none =>
      rw [RayBrush.onMouseDrag_outside_brush tk m s hs hj] at h
      exact absurd h (by simp)
    | some j =>
      rw [RayBrush.onMouseDrag_selected_brush tk m s j hs hj] at h
      simp only [Option.some.injEq] at h
      rw [← h]

theorem RayBrush.run_note_brush [Add V] [Sub V] [Zero V] [Zero F] [LT F]
    [∀ a b : F, Decidable (a < b)]
    (tk : Toolkit V F R) (evs : List Event) (s s' : RayBrush.State V F)
    (hevs : ∀ e ∈ evs, e.isMoveOrDrag = true)
    (h : RayBrush.run tk evs s = some s') : s'.note = s.note := by
  induction evs generalizing s with
  | nil =>
    simp only [RayBrush.run, Option.some.injEq] at h
    rw [← h]
  | cons e es ih =>
    have he := hevs e (List.mem_cons_self e es)
    have hes : ∀ e' ∈ es, e'.isMoveOrDrag = true :=
      fun e' h' => hevs e' (List.mem_cons_of_mem e h')
    simp only [RayBrush.run] at h
    cases hstep : RayBrush.step tk e s with
    | none => rw [hstep] at h; exact absurd h (by simp)
    | some s1 =>
      rw [hstep] at h
      rw [ih s1 hes h]
      cases e with
      | move m =>
        simp only [RayBrush.step, Option.some.injEq] at hstep
        rw [← hstep, RayBrush.onMouseMove_eq_brush]
      | drag m =>
        simp only [RayBrush.step] at hstep
        exact RayBrush.onMouseDrag_note tk m s s1 hstep
      | down m => exact absurd he (by simp [Event.isMoveOrDrag])
      | up m => exact absurd he (by simp [Event.isMoveOrDrag])

theorem PickRayDemo.run_cons_pick [Add V] [Sub V] [Zero V] [Zero F] [LT F]
    [∀ a b : F, Decidable (a < b)]
    (tk : Toolkit V F R) (e : Event) (es : List Event) (s : Stamps V F) :
    PickRayDemo.run tk (e :: es) s = (PickRayDemo.step tk e s).bind (PickRayDemo.run tk es) :=
  rfl

theorem RayBrush.run_cons_brush [Add V] [Sub V] [Zero V] [Zero F] [LT F]
    [∀ a b : F, Decidable (a < b)]
    (tk : Toolkit V F R) (e : Event) (es : List Event) (s : RayBrush.State V F) :
    RayBrush.run tk (e :: es) s = (RayBrush.step tk e s).bind (RayBrush.run tk es) :=
  rfl

theorem PickRayDemo.step_down_pick [Add V] [Sub V] [Zero V] [Zero F] [LT F]
    [∀ a b : F, Decidable (a < b)]
    (tk : Toolkit V F R) (m : Mouse) (s : Stamps V F) :
    PickRayDemo.step tk (Event.down m) s = some (PickRayDemo.onMouseDown tk m s) :=
  rfl

theorem RayBrush.step_down_brush [Add V] [Sub V] [Zero V] [Zero F] [LT F]
    [∀ a b : F, Decidable (a < b)]
    (tk : Toolkit V F R) (m : Mouse) (s : RayBrush.State V F) :
    RayBrush.step tk (Event.down m) s = some (RayBrush.onMouseDown tk m s) :=
  rfl

theorem wrapInt32_eq (z : Int) (h0 : -2147483648 ≤ z) (h1 : z < 2147483648) :
    wrapInt32 z = z := by
  unfold wrapInt32
  omega

theorem PickRayDemo.run_drags_pick [Add V] [Sub V] [Zero V] [Zero F] [LT F]
    [∀ a b : F, Decidable (a < b)]
    (tk : Toolkit V F R) (ms : List Mouse) (s : Stamps V F)
    (hs : s.selected 0 = true) (h1 : 1 ≤ s.currentSphereCount)
    (h2 : s.currentSphereCount + ms.length ≤ 1000) :
    ∃ s', PickRayDemo.run tk (ms.map Event.drag) s = some s' ∧
      s'.currentSphereCount = s.currentSphereCount + ms.length ∧
      s'.selected 0 = true := by
  induction ms generalizing s with
  | nil => exact ⟨s, rfl, by simp, hs⟩
  | cons m ms ih =>
    simp only [List.length_cons, Nat.cast_add, Nat.cast_one] at h2
    have hlt : s.currentSphereCount < 1000 := by omega
    obtain ⟨j, hj, hjv⟩ := index?_isSome (by omega : 0 ≤ s.currentSphereCount) hlt
    have hj0 : (0 : Fin N) ≠ j := by
      intro h0
      rw [← h0] at hjv
      simp at hjv
      omega
    obtain ⟨s1, hd, hsel1, hc1⟩ : ∃ s1, PickRayDemo.onMouseDrag tk m s = some s1 ∧
        s1.selected 0 = true ∧ s1.currentSphereCount = s.currentSphereCount + 1 := by
      refine ⟨_, PickRayDemo.onMouseDrag_selected_pick tk m s j hs hj, ?_, ?_⟩
      · show Function.update s.selected j false 0 = true
        rw [Function.update_noteq hj0]
        exact hs
      · exact wrapInt32_eq _ (by omega) (by omega)
    obtain ⟨s', hr, hc, hsel⟩ := ih s1 hsel1 (by omega) (by omega)
    refine ⟨s', ?_, ?_, hsel⟩
    · simp only [List.map_cons, PickRayDemo.run, PickRayDemo.step, hd, Option.some_bind]
      exact hr
    · rw [hc, hc1]
      simp only [List.length_cons, Nat.cast_add, Nat.cast_one]
      omega

theorem RayBrush.stepExec_note [Add V] [Sub V] [Zero V] [Zero F] [LT F]
    [∀ a b : F, Decidable (a < b)]
    (tk : Toolkit V F R) (e : Event) (x : RayBrush.Exec V F) (n : Int)
    (he : e.isMoveOrDrag = true) (hx : x.note? = some n) :
    (RayBrush.stepExec tk e x).note? = some n := by
  cases x with
  | ok s =>
    simp only [RayBrush.Exec.note?, Option.some.injEq] at hx
    simp only [RayBrush.stepExec]
    cases hstep : RayBrush.step tk e s with
    | none => simp only [RayBrush.Exec.note?, hx]
    | some s1 =>
      simp only [RayBrush.Exec.note?, Option.some.injEq]
      rw [← hx]
      cases e with
      | move m =>
        simp only [RayBrush.step, Option.some.injEq] at hstep
        rw [← hstep, RayBrush.onMouseMove_eq_brush]
      | drag m =>
        simp only [RayBrush.step] at hstep
        exact RayBrush.onMouseDrag_note tk m s s1 hstep
      | down m => exact absurd he (by simp [Event.isMoveOrDrag])
      | up m => exact absurd he (by simp [Event.isMoveOrDrag])
  | clobbered note l =>
    cases e with
    | move m => exact hx
    | drag m => exact hx
    | down m => exact absurd he (by simp [Event.isMoveOrDrag])
    | up m => exact absurd he (by simp [Event.isMoveOrDrag])
  | lost => exact absurd hx (by simp [RayBrush.Exec.note?])

theorem RayBrush.runExec_note [Add V] [Sub V] [Zero V] [Zero F] [LT F]
    [∀ a b : F, Decidable (a < b)]
    (tk : Toolkit V F R) (evs : List Event) (x : RayBrush.Exec V F) (n : Int)
    (hevs : ∀ e ∈ evs, e.isMoveOrDrag = true) (hx : x.note? = some n) :
    (RayBrush.runExec tk evs x).note? = some n := by
  induction evs generalizing x with
  | nil => exact hx
  | cons e es ih =>
    simp only [RayBrush.runExec]
    exact ih _ (fun e' h' => hevs e' (List.mem_cons_of_mem e h'))
      (RayBrush.stepExec_note tk e x n (hevs e (List.mem_cons_self e es)) hx)

theorem RayBrush.runExec_append [Add V] [Sub V] [Zero V] [Zero F] [LT F]
    [∀ a b : F, Decidable (a < b)]
    (tk : Toolkit V F R) (l1 l2 : List Event) (x : RayBrush.Exec V F) :
    RayBrush.runExec tk (l1 ++ l2) x = RayBrush.runExec tk l2 (RayBrush.runExec tk l1 x) := by
  induction l1 generalizing x with
  | nil => rfl
  | cons e es ih =>
    simp only [List.cons_append, RayBrush.runExec]
    exact ih _

theorem RayBrush.stepExec_up [Add V] [Sub V] [Zero V] [Zero F] [LT F]
    [∀ a b : F, Decidable (a < b)]
    (tk : Toolkit V F R) (mu : Mouse) (x : RayBrush.Exec V F) (n : Int)
    (hx : x.note? = some n) :
    ∃ l, x.synthManager? = some l ∧
      (RayBrush.stepExec tk (Event.up mu) x).synthManager? =
        some (l ++ [SynthCmd.triggerOff n]) := by
  cases x with
  | ok s =>
    simp only [RayBrush.Exec.note?, Option.some.injEq] at hx
    refine ⟨s.synthManager, rfl, ?_⟩
    simp only [RayBrush.stepExec, RayBrush.step, RayBrush.Exec.synthManager?,
      RayBrush.onMouseUp_eq_brush, hx]
  | clobbered note l =>
    simp only [RayBrush.Exec.note?, Option.some.injEq] at hx
    exact ⟨l, rfl, by simp only [RayBrush.stepExec, RayBrush.Exec.synthManager?, hx]⟩
  | lost => exact absurd hx (by simp [RayBrush.Exec.note?])

end Sequences

/-! ## Frequencies -/

section Frequencies

end Frequencies

/-! ## Claims -/

/-- C1 (the code departs from it): with `selected[0]` false and the cursor at
`1`, one drag event moves `currentSphereCount` to `2` in `PickRayDemo` and in
`RayBrush` alike, so a drag without a selection does increase the cursor. -/
theorem drag_unselected_advances_cursor :
    idleStamps.selected 0 = false ∧ idleStamps.currentSphereCount = 1 ∧
    (PickRayDemo.onMouseDrag lineToolkit ⟨5, 5⟩ idleStamps).map
        (fun s => s.currentSphereCount) = some 2 ∧
    idleState.selected 0 = false ∧ idleState.currentSphereCount = 1 ∧
    (RayBrush.onMouseDrag lineToolkit ⟨5, 5⟩ idleState).map
        (fun s => s.currentSphereCount) = some 2 := by
  decide

/-- C2 (the code departs from it): from the cursor value `1` set by
`onCreate`, with stamp 0 selected, 999 drag events leave `currentSphereCount`
at `1000`, not at `1`; stamp 0 is still selected, and the next drag event
writes its trail stamp at index `1000`, outside the arrays of size `N`. -/
theorem cursor_after_999_drags :
    ∃ s, RayBrush.run lineToolkit (List.replicate 999 (Event.drag ⟨0, 0⟩))
          (RayBrush.onCreate pressedState) = some s ∧
      s.currentSphereCount = 1000 ∧ s.selected 0 = true ∧
      index? s.currentSphereCount = none ∧
      RayBrush.onMouseDrag lineToolkit ⟨0, 0⟩ s = none := by
  obtain ⟨s, hr, hc, hs⟩ := RayBrush.run_drags lineToolkit (List.replicate 999 ⟨0, 0⟩)
    (RayBrush.onCreate pressedState) (by decide) (by decide)
    (by rw [List.length_replicate]; decide)
  have hc1 : s.currentSphereCount = 1000 := by
    rw [hc, List.length_replicate]
    decide
  have hi : index? s.currentSphereCount = none := index?_none (by omega)
  refine ⟨s, ?_, hc1, hs, hi, RayBrush.onMouseDrag_outside_brush lineToolkit ⟨0, 0⟩ s hs hi⟩
  rw [← hr, List.map_replicate]

/-- C4 (the code departs from it): `PickRayDemo::onDraw` sets the highlight
colour for stamp 0 before the selected/hover/else chain, which then always
overwrites it; the first sphere drawn is white `(1,1,1)` when the lead stamp
is neither selected nor hovered and magenta `(1,0,1)` when it is selected,
never `(1,1,0)`.  `RayBrush::onDraw` sets the highlight colour after the chain
and draws stamp 0 with `(1,1,0)`. -/
theorem pickRay_lead_colour_overwritten :
    (PickRayDemo.onDraw ⟨0, 0, 0⟩ idleStamps).2.head? = some (0, ⟨1, 1, 1⟩) ∧
    (PickRayDemo.onDraw ⟨0, 0, 0⟩ pressedStamps).2.head? = some (0, ⟨1, 0, 1⟩) ∧
    (RayBrush.onDraw ⟨0, 0, 0⟩ idleState).2.head? = some (0, ⟨1, 1, 0⟩) ∧
    (RayBrush.onDraw ⟨0, 0, 0⟩ pressedState).2.head? = some (0, ⟨1, 1, 0⟩) := by
  rw [PickRayDemo.onDraw_draws_pick, PickRayDemo.onDraw_draws_pick, RayBrush.onDraw_draws_brush,
    RayBrush.onDraw_draws_brush]
  simp only [head?_map_finRange]
  decide

/-- C5: pointer-down tests stamp 0 only, in `PickRayDemo` and in `RayBrush`.
With `r` the pick ray and `t` its intersection parameter against the sphere at
`pos[0]`, a hit being `t > 0`: afterwards `selected[0]` is true exactly on a
hit; on a hit `offset[0] = pos[0] - r(t)` and `dist[0] = t`; on a miss
`offset[0]` and `dist[0]` are unchanged; `pos`, `hover` and the
`selected`/`offset`/`dist` entries of every index `i ≥ 1` are unchanged. -/
theorem onMouseDown_tests_lead_only {V F R : Type} [Sub V] [Zero F] [LT F]
    [∀ a b : F, Decidable (a < b)] (tk : Toolkit V F R) (m : Mouse) (r : R) (t : F) :
    (∀ s : Stamps V F, r = tk.getPickRay m.x m.y → t = tk.intersectSphere r (s.pos 0) →
      ((PickRayDemo.onMouseDown tk m s).selected 0 = true ↔ 0 < t) ∧
      (0 < t → (PickRayDemo.onMouseDown tk m s).offset 0 = s.pos 0 - tk.rayAt r t ∧
        (PickRayDemo.onMouseDown tk m s).dist 0 = t) ∧
      (¬ 0 < t → (PickRayDemo.onMouseDown tk m s).offset 0 = s.offset 0 ∧
        (PickRayDemo.onMouseDown tk m s).dist 0 = s.dist 0) ∧
      (PickRayDemo.onMouseDown tk m s).pos = s.pos ∧
      (PickRayDemo.onMouseDown tk m s).hover = s.hover ∧
      ∀ i : Fin N, 1 ≤ i.val →
        (PickRayDemo.onMouseDown tk m s).selected i = s.selected i ∧
        (PickRayDemo.onMouseDown tk m s).offset i = s.offset i ∧
        (PickRayDemo.onMouseDown tk m s).dist i = s.dist i) ∧
    (∀ s : RayBrush.State V F, r = tk.getPickRay m.x m.y →
      t = tk.intersectSphere r (s.pos 0) →
      ((RayBrush.onMouseDown tk m s).selected 0 = true ↔ 0 < t) ∧
      (0 < t → (RayBrush.onMouseDown tk m s).offset 0 = s.pos 0 - tk.rayAt r t ∧
        (RayBrush.onMouseDown tk m s).dist 0 = t) ∧
      (¬ 0 < t → (RayBrush.onMouseDown tk m s).offset 0 = s.offset 0 ∧
        (RayBrush.onMouseDown tk m s).dist 0 = s.dist 0) ∧
      (RayBrush.onMouseDown tk m s).pos = s.pos ∧
      (RayBrush.onMouseDown tk m s).hover = s.hover ∧
      ∀ i : Fin N, 1 ≤ i.val →
        (RayBrush.onMouseDown tk m s).selected i = s.selected i ∧
        (RayBrush.onMouseDown tk m s).offset i = s.offset i ∧
        (RayBrush.onMouseDown tk m s).dist i = s.dist i) := by
  constructor
  · intro s hr ht
    subst hr
    subst ht
    obtain ⟨h1, h2, h3, h4, h5, h6⟩ := PickRayDemo.onMouseDown_spec_pick tk m s
    refine ⟨h1, ?_, ?_, h4, h5, h6⟩
    · intro hpos
      rw [h2, h3, if_pos hpos, if_pos hpos]
      exact ⟨rfl, rfl⟩
    · intro hneg
      rw [h2, h3, if_neg hneg, if_neg hneg]
      exact ⟨rfl, rfl⟩
  · intro s hr ht
    subst hr
    subst ht
    obtain ⟨h1, h2, h3, h4, h5, h6⟩ := RayBrush.onMouseDown_spec_brush tk m s
    refine ⟨h1, ?_, ?_, h4, h5, h6⟩
    · intro hpos
      rw [h2, h3, if_pos hpos, if_pos hpos]
      exact ⟨rfl, rfl⟩
    · intro hneg
      rw [h2, h3, if_neg hneg, if_neg hneg]
      exact ⟨rfl, rfl⟩

/-- Witness of C5: a press at column `1` hits the lead stamp at the origin
(`t = 10`) and records the offset `0 - 1 = -1`, in both programs; a press at
column `7` misses it. -/
theorem onMouseDown_tests_lead_only_witness :
    ((PickRayDemo.onMouseDown lineToolkit ⟨1, 0⟩ idleStamps).selected 0 = true ∧
      (PickRayDemo.onMouseDown lineToolkit ⟨1, 0⟩ idleStamps).offset 0 = -1 ∧
      (PickRayDemo.onMouseDown lineToolkit ⟨1, 0⟩ idleStamps).dist 0 = 10 ∧
      (PickRayDemo.onMouseDown lineToolkit ⟨1, 0⟩ idleStamps).selected 5 = false) ∧
    ((RayBrush.onMouseDown lineToolkit ⟨1, 0⟩ idleState).selected 0 = true ∧
      (RayBrush.onMouseDown lineToolkit ⟨1, 0⟩ idleState).offset 0 = -1 ∧
      (RayBrush.onMouseDown lineToolkit ⟨1, 0⟩ idleState).dist 0 = 10 ∧
      (RayBrush.onMouseDown lineToolkit ⟨1, 0⟩ idleState).selected 5 = false) ∧
    ((RayBrush.onMouseDown lineToolkit ⟨7, 0⟩ pressedState).selected 0 = false ∧
      (RayBrush.onMouseDown lineToolkit ⟨7, 0⟩ pressedState).offset 0 = 0) :=
  have hP := (onMouseDown_tests_lead_only lineToolkit ⟨1, 0⟩ 1 10).1 idleStamps rfl rfl
  have hR := (onMouseDown_tests_lead_only lineToolkit ⟨1, 0⟩ 1 10).2 idleState rfl rfl
  have hM := (onMouseDown_tests_lead_only lineToolkit ⟨7, 0⟩ 7 (-1)).2 pressedState rfl rfl
  ⟨⟨hP.1.2 (by decide), (hP.2.1 (by decide)).1, (hP.2.1 (by decide)).2,
      (hP.2.2.2.2.2 5 (by decide)).1⟩,
    ⟨hR.1.2 (by decide), (hR.2.1 (by decide)).1, (hR.2.1 (by decide)).2,
      (hR.2.2.2.2.2 5 (by decide)).1⟩,
    ⟨by
        cases hsel : (RayBrush.onMouseDown lineToolkit ⟨7, 0⟩ pressedState).selected 0 with
        | false => rfl
        | true => exact absurd (hM.1.1 hsel) (by decide),
      (hM.2.2.1 (by decide)).1⟩⟩

set_option maxRecDepth 10000 in
/-- C6 (fails as stated): over `float` vectors, from the start-up state a press
at pixel `(1, 0)` hits the lead stamp and records the offset `-0.1f` in `x`;
the cursor is `1`.  A drag to pixel `(30, 0)` sets `pos[0].x` to the rounded
sum `3.0f + -0.1f = 2.9f`, and `pos[0] - r'(dist[0])` is then not the recorded
offset (its `x` is `-0.099999905`, not `-0.1f`); in `PickRayDemo` and in
`RayBrush`. -/
theorem drag_offset_not_recovered_in_float :
    (PickRayDemo.onMouseDown floatToolkit ⟨1, 0⟩ floatStamps).selected 0 = true ∧
    (PickRayDemo.onMouseDown floatToolkit ⟨1, 0⟩ floatStamps).currentSphereCount = 1 ∧
    (PickRayDemo.onMouseDrag floatToolkit ⟨30, 0⟩
        (PickRayDemo.onMouseDown floatToolkit ⟨1, 0⟩ floatStamps)).map
      (fun s' => decide (s'.pos 0 -
          floatToolkit.rayAt (floatToolkit.getPickRay 30 0)
            ((PickRayDemo.onMouseDown floatToolkit ⟨1, 0⟩ floatStamps).dist 0) =
        (PickRayDemo.onMouseDown floatToolkit ⟨1, 0⟩ floatStamps).offset 0)) = some false ∧
    (RayBrush.onMouseDown floatToolkit ⟨1, 0⟩ floatState).selected 0 = true ∧
    (RayBrush.onMouseDown floatToolkit ⟨1, 0⟩ floatState).currentSphereCount = 1 ∧
    (RayBrush.onMouseDrag floatToolkit ⟨30, 0⟩
        (RayBrush.onMouseDown floatToolkit ⟨1, 0⟩ floatState)).map
      (fun s' => decide (s'.pos 0 -
          floatToolkit.rayAt (floatToolkit.getPickRay 30 0)
            ((RayBrush.onMouseDown floatToolkit ⟨1, 0⟩ floatState).dist 0) =
        (RayBrush.onMouseDown floatToolkit ⟨1, 0⟩ floatState).offset 0)) = some false := by
  decide

/-- C6 (amended): with `selected[0]` true and the cursor at `c`, `1 ≤ c < N`, a
drag event with new pick ray `r'` is handled (in `PickRayDemo` and in
`RayBrush`) and sets `pos[0]` and `pos[c]` both to the `float` sum
`r'(dist[0]) + offset[0]`; it sets `hover[c]` and `selected[c]` to false,
leaves `selected[0]` true and leaves `offset[0]`, `dist[0]` unchanged.  No law
of arithmetic is assumed. -/
theorem onMouseDrag_moves_lead {V F R : Type} [Add V] [Zero V] [Zero F]
    (tk : Toolkit V F R) (m : Mouse) (r' : R) (c : Fin N) :
    (∀ s : Stamps V F, s.selected 0 = true → s.currentSphereCount = (c.val : Int) →
      1 ≤ c.val → r' = tk.getPickRay m.x m.y →
      ∃ s', PickRayDemo.onMouseDrag tk m s = some s' ∧
        s'.pos 0 = tk.rayAt r' (s.dist 0) + s.offset 0 ∧
        s'.pos c = tk.rayAt r' (s.dist 0) + s.offset 0 ∧
        s'.hover c = false ∧ s'.selected c = false ∧ s'.selected 0 = true ∧
        s'.offset 0 = s.offset 0 ∧ s'.dist 0 = s.dist 0) ∧
    (∀ s : RayBrush.State V F, s.selected 0 = true →
      s.currentSphereCount = (c.val : Int) → 1 ≤ c.val → r' = tk.getPickRay m.x m.y →
      ∃ s', RayBrush.onMouseDrag tk m s = some s' ∧
        s'.pos 0 = tk.rayAt r' (s.dist 0) + s.offset 0 ∧
        s'.pos c = tk.rayAt r' (s.dist 0) + s.offset 0 ∧
        s'.hover c = false ∧ s'.selected c = false ∧ s'.selected 0 = true ∧
        s'.offset 0 = s.offset 0 ∧ s'.dist 0 = s.dist 0) := by
  constructor
  · intro s hs hc h1 hr
    subst hr
    have hj : index? s.currentSphereCount = some c := by rw [hc]; exact index?_val c
    have h0 : (0 : Fin N) ≠ c := fun h => fin_ne_zero_of_one_le c h1 h.symm
    refine ⟨_, PickRayDemo.onMouseDrag_selected_pick tk m s c hs hj,
      ?_, ?_, ?_, ?_, ?_, ?_, ?_⟩
    · simp [Function.update_noteq h0]
    · simp
    · simp
    · simp
    · simp [Function.update_noteq h0, hs]
    · simp [Function.update_noteq h0]
    · simp [Function.update_noteq h0]
  · intro s hs hc h1 hr
    subst hr
    have hj : index? s.currentSphereCount = some c := by rw [hc]; exact index?_val c
    have h0 : (0 : Fin N) ≠ c := fun h => fin_ne_zero_of_one_le c h1 h.symm
    refine ⟨_, RayBrush.onMouseDrag_selected_brush tk m s c hs hj,
      ?_, ?_, ?_, ?_, ?_, ?_, ?_⟩
    · simp [Function.update_noteq h0]
    · simp
    · simp
    · simp
    · simp [Function.update_noteq h0, hs]
    · simp [Function.update_noteq h0]
    · simp [Function.update_noteq h0]

/-- Witness of C6: with the lead stamp selected and the cursor at `1`, a drag
to column `3` is handled in both programs. -/
theorem onMouseDrag_moves_lead_witness :
    (∃ s', PickRayDemo.onMouseDrag lineToolkit ⟨3, 0⟩ pressedStamps = some s' ∧
      s'.pos 0 = 3 ∧ s'.pos 1 = 3 ∧ s'.selected 1 = false ∧ s'.selected 0 = true) ∧
    (∃ s', RayBrush.onMouseDrag lineToolkit ⟨3, 0⟩ pressedState = some s' ∧
      s'.pos 0 = 3 ∧ s'.pos 1 = 3 ∧ s'.selected 1 = false ∧ s'.selected 0 = true) :=
  have hP := (onMouseDrag_moves_lead lineToolkit ⟨3, 0⟩ 3 1).1 pressedStamps
    (by decide) rfl (by decide) rfl
  have hR := (onMouseDrag_moves_lead lineToolkit ⟨3, 0⟩ 3 1).2 pressedState
    (by decide) rfl (by decide) rfl
  ⟨hP.elim fun s' h => ⟨s', h.1, h.2.1, h.2.2.1, h.2.2.2.2.1, h.2.2.2.2.2.1⟩,
    hR.elim fun s' h => ⟨s', h.1, h.2.1, h.2.2.1, h.2.2.2.2.1, h.2.2.2.2.2.1⟩⟩

/-- C7: after pointer-up, in `PickRayDemo` and in `RayBrush`, `selected[i]` is
false for every index `i` of the array, and `pos`, `offset`, `dist`, `hover`
and the cursor `currentSphereCount` are unchanged. -/
theorem onMouseUp_clears_selection {V F : Type} (m : Mouse) :
    (∀ s : Stamps V F,
      (∀ i : Fin N, (PickRayDemo.onMouseUp m s).selected i = false) ∧
      (PickRayDemo.onMouseUp m s).pos = s.pos ∧
      (PickRayDemo.onMouseUp m s).offset = s.offset ∧
      (PickRayDemo.onMouseUp m s).dist = s.dist ∧
      (PickRayDemo.onMouseUp m s).hover = s.hover ∧
      (PickRayDemo.onMouseUp m s).currentSphereCount = s.currentSphereCount) ∧
    (∀ s : RayBrush.State V F,
      (∀ i : Fin N, (RayBrush.onMouseUp m s).selected i = false) ∧
      (RayBrush.onMouseUp m s).pos = s.pos ∧
      (RayBrush.onMouseUp m s).offset = s.offset ∧
      (RayBrush.onMouseUp m s).dist = s.dist ∧
      (RayBrush.onMouseUp m s).hover = s.hover ∧
      (RayBrush.onMouseUp m s).currentSphereCount = s.currentSphereCount) := by
  constructor
  · intro s
    rw [PickRayDemo.onMouseUp_eq_pick]
    exact ⟨fun _ => rfl, rfl, rfl, rfl, rfl, rfl⟩
  · intro s
    rw [RayBrush.onMouseUp_eq_brush]
    exact ⟨fun _ => rfl, rfl, rfl, rfl, rfl, rfl⟩

/-- C8: starting from a state in which no stamp is selected, in every state
reached by a sequence of move/down/drag/up events whose drag writes stay
inside the arrays (the sequence is handled to its end), `selected[i]` is false
for every index `i ≥ 1`; in `PickRayDemo` and in `RayBrush`. -/
theorem trail_stamps_never_selected {V F R : Type} [Add V] [Sub V] [Zero V] [Zero F]
    [LT F] [∀ a b : F, Decidable (a < b)] (tk : Toolkit V F R) (evs : List Event) :
    (∀ s0 s : Stamps V F, (∀ i : Fin N, s0.selected i = false) →
      PickRayDemo.run tk evs s0 = some s →
      ∀ i : Fin N, 1 ≤ i.val → s.selected i = false) ∧
    (∀ s0 s : RayBrush.State V F, (∀ i : Fin N, s0.selected i = false) →
      RayBrush.run tk evs s0 = some s →
      ∀ i : Fin N, 1 ≤ i.val → s.selected i = false) := by
  constructor
  · intro s0 s h0 hrun
    exact PickRayDemo.run_invariant_pick tk
      (fun s => ∀ i : Fin N, 1 ≤ i.val → s.selected i = false)
      (PickRayDemo.step_trail_unselected_pick tk) evs s0 s (fun i _ => h0 i) hrun
  · intro s0 s h0 hrun
    exact RayBrush.run_invariant_brush tk
      (fun s => ∀ i : Fin N, 1 ≤ i.val → s.selected i = false)
      (RayBrush.step_trail_unselected_brush tk) evs s0 s (fun i _ => h0 i) hrun

/-- Witness of C8: after a press on the lead stamp and two drags, handled by
both programs from the idle state, `selected[1]` is false. -/
theorem trail_stamps_never_selected_witness :
    (∃ s, PickRayDemo.run lineToolkit pressDragDrag idleStamps = some s ∧
      s.selected 1 = false) ∧
    (∃ s, RayBrush.run lineToolkit pressDragDrag idleState = some s ∧
      s.selected 1 = false) :=
  have hP : (PickRayDemo.run lineToolkit pressDragDrag idleStamps).isSome = true := by
    decide
  have hR : (RayBrush.run lineToolkit pressDragDrag idleState).isSome = true := by
    decide
  ⟨⟨Option.get _ hP, (Option.some_get hP).symm,
      (trail_stamps_never_selected lineToolkit pressDragDrag).1 idleStamps _
        (fun _ => rfl) (Option.some_get hP).symm 1 (by decide)⟩,
    ⟨Option.get _ hR, (Option.some_get hR).symm,
      (trail_stamps_never_selected lineToolkit pressDragDrag).2 idleState _
        (fun _ => rfl) (Option.some_get hR).symm 1 (by decide)⟩⟩

/-- C9: a pointer press starts a voice exactly when the derived pitch is
positive.  In `MyApp` (020_2DpaintNotes) the pitch is the raw `x` and the
press appends `setFrequency x 220, triggerOn x` to the synthManager calls iff
`0 < x`, nothing otherwise.  In `RayBrush`, on a press that hits stamp 0 the
pitch `q` is the truncating quotient `(x + y) / 10` of the 32-bit `int` sum
and the press appends `setFrequency q 220, triggerOn q` iff `0 < q`; on a
press that misses stamp 0 no synthManager call is made and `note` is
unchanged.  Whenever `x + y` lies in the range of `int`, `q` is the
truncating quotient of the exact sum. -/
theorem press_triggers_iff_pitch_positive {V F R : Type} [Sub V] [Zero F] [LT F]
    [∀ a b : F, Decidable (a < b)] (tk : Toolkit V F R) (m : Mouse) :
    (∀ s : MyApp.State,
      (MyApp.onMouseDown m s).note = m.x ∧
      (MyApp.onMouseDown m s).synthManager = s.synthManager ++
        (if 0 < m.x then [SynthCmd.setFrequency m.x 220, SynthCmd.triggerOn m.x] else []) ∧
      (SynthCmd.triggerOn m.x ∈
          (MyApp.onMouseDown m s).synthManager.drop s.synthManager.length ↔ 0 < m.x)) ∧
    (∀ s : RayBrush.State V F,
      (RayBrush.onMouseDown tk m s).note =
        (if 0 < tk.intersectSphere (tk.getPickRay m.x m.y) (s.pos 0)
          then Int.tdiv (wrapInt32 (m.x + m.y)) 10 else s.note) ∧
      (RayBrush.onMouseDown tk m s).synthManager = s.synthManager ++
        (if 0 < tk.intersectSphere (tk.getPickRay m.x m.y) (s.pos 0) ∧
            0 < Int.tdiv (wrapInt32 (m.x + m.y)) 10
          then [SynthCmd.setFrequency (Int.tdiv (wrapInt32 (m.x + m.y)) 10) 220,
            SynthCmd.triggerOn (Int.tdiv (wrapInt32 (m.x + m.y)) 10)]
          else []) ∧
      ((∃ p, SynthCmd.triggerOn p ∈
            (RayBrush.onMouseDown tk m s).synthManager.drop s.synthManager.length) ↔
        0 < tk.intersectSphere (tk.getPickRay m.x m.y) (s.pos 0) ∧
          0 < Int.tdiv (wrapInt32 (m.x + m.y)) 10)) ∧
    (-2147483648 ≤ m.x + m.y → m.x + m.y < 2147483648 →
      Int.tdiv (wrapInt32 (m.x + m.y)) 10 = Int.tdiv (m.x + m.y) 10) := by
  refine ⟨?_, ?_, ?_⟩
  · intro s
    have hsynth : (MyApp.onMouseDown m s).synthManager = s.synthManager ++
        (if 0 < m.x then [SynthCmd.setFrequency m.x 220, SynthCmd.triggerOn m.x]
          else []) := by
      unfold MyApp.onMouseDown
      by_cases hx : 0 < m.x <;> simp [hx]
    refine ⟨?_, hsynth, ?_⟩
    · unfold MyApp.onMouseDown
      by_cases hx : 0 < m.x <;> simp [hx]
    rw [hsynth, List.drop_left]
    by_cases hx : 0 < m.x <;> simp [hx]
  · intro s
    have hsynth : (RayBrush.onMouseDown tk m s).synthManager = s.synthManager ++
        (if 0 < tk.intersectSphere (tk.getPickRay m.x m.y) (s.pos 0) ∧
            0 < Int.tdiv (wrapInt32 (m.x + m.y)) 10
          then [SynthCmd.setFrequency (Int.tdiv (wrapInt32 (m.x + m.y)) 10) 220,
            SynthCmd.triggerOn (Int.tdiv (wrapInt32 (m.x + m.y)) 10)]
          else []) := by
      unfold RayBrush.onMouseDown
      by_cases ht : 0 < tk.intersectSphere (tk.getPickRay m.x m.y) (s.pos 0)
      · by_cases hq : 0 < Int.tdiv (wrapInt32 (m.x + m.y)) 10 <;> simp [ht, hq]
      · simp [ht]
    refine ⟨?_, hsynth, ?_⟩
    · unfold RayBrush.onMouseDown
      by_cases ht : 0 < tk.intersectSphere (tk.getPickRay m.x m.y) (s.pos 0)
      · by_cases hq : 0 < Int.tdiv (wrapInt32 (m.x + m.y)) 10 <;> simp [ht, hq]
      · simp [ht]
    · rw [hsynth, List.drop_left]
      by_cases hc : 0 < tk.intersectSphere (tk.getPickRay m.x m.y) (s.pos 0) ∧
          0 < Int.tdiv (wrapInt32 (m.x + m.y)) 10
      · simp [hc]
      · simp [hc]
  · intro h0 h1
    rw [wrapInt32_eq _ h0 h1]

/-- Witness of C9: a press at `(1, 30)` on the lead stamp of the idle state;
the sum `31` lies in the range of `int` and the pitch is `3`.  At
`(1, 2147483647)` the 32-bit sum is `-2147483648`, the pitch `-214748364`, and
no voice is started. -/
theorem press_triggers_iff_pitch_positive_witness :
    (RayBrush.onMouseDown lineToolkit ⟨1, 30⟩ idleState).note = 3 ∧
    (RayBrush.onMouseDown lineToolkit ⟨1, 30⟩ idleState).synthManager =
      [SynthCmd.setFrequency 3 220, SynthCmd.triggerOn 3] ∧
    Int.tdiv (wrapInt32 (1 + 30)) 10 = Int.tdiv (1 + 30) 10 ∧
    (RayBrush.onMouseDown lineToolkit ⟨1, 2147483647⟩ idleState).note = -214748364 ∧
    (RayBrush.onMouseDown lineToolkit ⟨1, 2147483647⟩ idleState).synthManager = [] :=
  ⟨((press_triggers_iff_pitch_positive lineToolkit ⟨1, 30⟩).2.1 idleState).1,
    ((press_triggers_iff_pitch_positive lineToolkit ⟨1, 30⟩).2.1 idleState).2.1,
    (press_triggers_iff_pitch_positive lineToolkit ⟨1, 30⟩).2.2 (by decide) (by decide),
    ((press_triggers_iff_pitch_positive lineToolkit ⟨1, 2147483647⟩).2.1 idleState).1,
    ((press_triggers_iff_pitch_positive lineToolkit ⟨1, 2147483647⟩).2.1 idleState).2.1⟩

/-- C11 (fails as stated): in `RayBrush` a press at `(50, 50)` that misses
stamp 0 records no pitch, so after a drag the release passes the old `note`,
`72`, to `triggerOff`, while the pitch derived from the press coordinates is
`(50 + 50) / 10 = 10`. -/
theorem release_after_missed_press_uses_old_note :
    (RayBrush.run lineToolkit
        [Event.down ⟨50, 50⟩, Event.drag ⟨51, 50⟩, Event.up ⟨51, 50⟩]
        (RayBrush.onCreate idleState)).map (fun s => s.synthManager)
      = some [SynthCmd.triggerOff 72] ∧
    Int.tdiv (50 + 50) 10 = 10 := by
  simp only [RayBrush.run, RayBrush.step, Option.some_bind, Option.bind_some,
    RayBrush.onMouseUp_eq_brush]
  decide

/-- C11 (amended): the release stops the voice with the pitch recorded at
press time.  For a pointer-down at `m`, any move/drag events `evs`, then a
pointer-up: in `MyApp` (020_2DpaintNotes) the pitch passed to `triggerOff` is
the raw `m.x`; in `RayBrush`, also when a drag in between writes outside the
stamp arrays, it is the truncating quotient `(m.x + m.y) / 10` of the 32-bit
sum when the press hits stamp 0, and when the press misses stamp 0 no pitch is
recorded and it is the `note` held before the press. -/
theorem release_uses_recorded_pitch {V F R : Type} [Add V] [Sub V] [Zero V] [Zero F]
    [LT F] [∀ a b : F, Decidable (a < b)] (tk : Toolkit V F R) (m mu : Mouse)
    (evs : List Event) (hevs : ∀ e ∈ evs, e.isMoveOrDrag = true) :
    (∀ s : MyApp.State,
      (MyApp.run (Event.down m :: evs) s).note = m.x ∧
      (MyApp.run (Event.down m :: evs ++ [Event.up mu]) s).synthManager =
        (MyApp.run (Event.down m :: evs) s).synthManager ++ [SynthCmd.triggerOff m.x]) ∧
    (∀ s : RayBrush.State V F,
      (RayBrush.runExec tk (Event.down m :: evs) (.ok s)).note? =
        some (if 0 < tk.intersectSphere (tk.getPickRay m.x m.y) (s.pos 0)
          then Int.tdiv (wrapInt32 (m.x + m.y)) 10 else s.note) ∧
      ∃ l, (RayBrush.runExec tk (Event.down m :: evs) (.ok s)).synthManager? = some l ∧
        (RayBrush.runExec tk (Event.down m :: evs ++ [Event.up mu]) (.ok s)).synthManager? =
          some (l ++ [SynthCmd.triggerOff
            (if 0 < tk.intersectSphere (tk.getPickRay m.x m.y) (s.pos 0)
              then Int.tdiv (wrapInt32 (m.x + m.y)) 10 else s.note)])) ∧
    (-2147483648 ≤ m.x + m.y → m.x + m.y < 2147483648 →
      Int.tdiv (wrapInt32 (m.x + m.y)) 10 = Int.tdiv (m.x + m.y) 10) := by
  refine ⟨?_, ?_, ?_⟩
  · intro s
    have hnote : (MyApp.run (Event.down m :: evs) s).note = m.x := by
      simp only [MyApp.run, MyApp.step]
      rw [MyApp.run_note_paint evs _ hevs]
      unfold MyApp.onMouseDown
      by_cases hx : 0 < m.x <;> simp [hx]
    refine ⟨hnote, ?_⟩
    rw [MyApp.run_append_paint]
    simp only [MyApp.run, MyApp.step, MyApp.onMouseUp] at hnote ⊢
    rw [hnote]
  · intro s
    have hn : (RayBrush.runExec tk (Event.down m :: evs) (.ok s)).note? =
        some (if 0 < tk.intersectSphere (tk.getPickRay m.x m.y) (s.pos 0)
          then Int.tdiv (wrapInt32 (m.x + m.y)) 10 else s.note) := by
      simp only [RayBrush.runExec, RayBrush.stepExec, RayBrush.step]
      apply RayBrush.runExec_note tk evs _ _ hevs
      simp only [RayBrush.Exec.note?, RayBrush.onMouseDown_note]
    refine ⟨hn, ?_⟩
    rw [RayBrush.runExec_append]
    simp only [RayBrush.runExec]
    exact RayBrush.stepExec_up tk mu _ _ hn
  · intro h0 h1
    rw [wrapInt32_eq _ h0 h1]

/-- Witness of C11: a press at `(40, 7)` in `MyApp` followed by two drags and
a move; in `RayBrush` a press at `(1, 30)`, which hits the lead stamp (pitch
`3`), followed by 1000 drags, the last of which writes outside the arrays. -/
theorem release_uses_recorded_pitch_witness :
    (MyApp.run (Event.down ⟨40, 7⟩ :: dragDragMove) MyApp.initial).note = 40 ∧
    (RayBrush.runExec lineToolkit
        (Event.down ⟨1, 30⟩ :: List.replicate 1000 (Event.drag ⟨0, 0⟩))
        (.ok idleState)).note? = some 3 ∧
    Int.tdiv (wrapInt32 (1 + 30)) 10 = Int.tdiv (1 + 30) 10 :=
  ⟨((release_uses_recorded_pitch lineToolkit ⟨40, 7⟩ ⟨4, 1⟩ dragDragMove
      (by decide)).1 MyApp.initial).1,
    ((release_uses_recorded_pitch lineToolkit ⟨1, 30⟩ ⟨4, 1⟩
      (List.replicate 1000 (Event.drag ⟨0, 0⟩))
      (fun e he => by rw [List.eq_of_mem_replicate he]; rfl)).2.1 idleState).1,
    (release_uses_recorded_pitch lineToolkit ⟨1, 30⟩ ⟨4, 1⟩ dragDragMove
      (by decide)).2.2 (by decide) (by decide)⟩

/-- C12 (the code departs from it): after start-up, a press on the lead stamp
and 999 drag events are handled by `RayBrush` and by `PickRayDemo` and leave
stamp 0 selected with `currentSphereCount = 1000`; the next drag event writes
`pos`, `offset`, `dist`, `hover` and `selected` at index `1000`, which is not
an index of the arrays of size `N = 1000`. -/
theorem drag_writes_past_the_arrays :
    (∃ s, RayBrush.run lineToolkit
          (Event.down ⟨0, 0⟩ :: List.replicate 999 (Event.drag ⟨0, 0⟩))
          (RayBrush.onCreate idleState) = some s ∧
      s.selected 0 = true ∧ s.currentSphereCount = 1000 ∧
      index? s.currentSphereCount = none ∧
      RayBrush.onMouseDrag lineToolkit ⟨0, 0⟩ s = none) ∧
    (∃ s, PickRayDemo.run lineToolkit
          (Event.down ⟨0, 0⟩ :: List.replicate 999 (Event.drag ⟨0, 0⟩))
          (PickRayDemo.onCreate idleStamps) = some s ∧
      s.selected 0 = true ∧ s.currentSphereCount = 1000 ∧
      index? s.currentSphereCount = none ∧
      PickRayDemo.onMouseDrag lineToolkit ⟨0, 0⟩ s = none) := by
  constructor
  · obtain ⟨s, hr, hc, hs⟩ := RayBrush.run_drags lineToolkit (List.replicate 999 ⟨0, 0⟩)
      (RayBrush.onMouseDown lineToolkit ⟨0, 0⟩ (RayBrush.onCreate idleState))
      (by decide) (by decide) (by rw [List.length_replicate]; decide)
    have hc1 : s.currentSphereCount = 1000 := by
      rw [hc, List.length_replicate]
      decide
    have hi : index? s.currentSphereCount = none := index?_none (by omega)
    refine ⟨s, ?_, hs, hc1, hi, RayBrush.onMouseDrag_outside_brush lineToolkit ⟨0, 0⟩ s hs hi⟩
    rw [List.map_replicate] at hr
    rw [RayBrush.run_cons_brush, RayBrush.step_down_brush, Option.some_bind]
    exact hr
  · obtain ⟨s, hr, hc, hs⟩ := PickRayDemo.run_drags_pick lineToolkit
      (List.replicate 999 ⟨0, 0⟩)
      (PickRayDemo.onMouseDown lineToolkit ⟨0, 0⟩ (PickRayDemo.onCreate idleStamps))
      (by decide) (by decide) (by rw [List.length_replicate]; decide)
    have hc1 : s.currentSphereCount = 1000 := by
      rw [hc, List.length_replicate]
      decide
    have hi : index? s.currentSphereCount = none := index?_none (by omega)
    refine ⟨s, ?_, hs, hc1, hi, PickRayDemo.onMouseDrag_outside_pick lineToolkit ⟨0, 0⟩ s hs hi⟩
    rw [List.map_replicate] at hr
    rw [PickRayDemo.run_cons_pick, PickRayDemo.step_down_pick, Option.some_bind]
    exact hr

end MusicBrush
